import Mathlib

/-!
Shallow embedding of the stayGlobal booking core: the room allocator
(getNextAvailableRoom), the booking lifecycle endpoints (createBooking,
updateBookingStatus, cancelBooking, selfCheckout) from the booking
controller, the ticket-code generator from the Booking model, and the
auto-checkout batch (AutoCheckoutService.processAutoCheckouts).

Dates/timestamps are modelled as `Int` milliseconds (JS Date.getTime),
MongoDB documents as Lean structures, and the document stores as lists.
HTTP plumbing, authentication lookups and external collaborators
(notifications, chat, commission) are out of scope of the claims and are
represented by explicit boolean parameters (`isOwnerOrAdmin`,
`ownerEligible`, ...) or failure oracles where the claims mention them.
-/

namespace StayGlobal

/-- Booking lifecycle status, from the Booking schema enum
`['confirmed', 'cancelled', 'completed', 'no_show', 'checked-in']`. -/
inductive BookingStatus where
  | confirmed
  | cancelled
  | completed
  | noShow
  | checkedIn
deriving DecidableEq, Repr

/-- A booking document, restricted to the fields the allocator and the
lifecycle endpoints read or write. `roomNumber` is unset until check-in. -/
structure Booking where
  id : Nat
  apartmentId : Nat
  guestId : Nat
  checkIn : Int
  checkOut : Int
  bookingStatus : BookingStatus
  roomNumber : Option Nat
  checkInTime : Option Int
  checkOutTime : Option Int
  ticketCode : String
deriving DecidableEq, Repr

/-- An apartment (listing) document, restricted to the fields the booking
controller reads or writes. -/
structure Apartment where
  id : Nat
  totalRooms : Nat
  availableRooms : Int
  isActive : Bool
deriving DecidableEq, Repr

/-- The persistent stores: the apartment collection, the booking
collection, and the counter standing for MongoDB's fresh `_id` supply. -/
structure DB where
  apartments : List Apartment
  bookings : List Booking
  nextId : Nat
deriving DecidableEq, Repr

/-- `Apartment.findById`. -/
def findApartment (db : DB) (aid : Nat) : Option Apartment :=
  db.apartments.find? (fun a => a.id == aid)

/-- `Booking.findById`. -/
def findBooking (db : DB) (bid : Nat) : Option Booking :=
  db.bookings.find? (fun b => b.id == bid)

/-- `booking.save()`: persist the in-memory document over the stored one
with the same id. -/
def saveBooking (db : DB) (b : Booking) : DB :=
  { db with bookings := db.bookings.map (fun x => if x.id == b.id then b else x) }

/-- `apartment.save()`. -/
def saveApartment (db : DB) (a : Apartment) : DB :=
  { db with apartments := db.apartments.map (fun x => if x.id == a.id then a else x) }

/-- The status filter `bookingStatus: { $in: ['confirmed', 'checked-in',
'completed'] }` used by the allocator query: statuses that count toward
room occupancy. -/
def countsTowardOccupancy : BookingStatus → Bool
  | .confirmed => true
  | .checkedIn => true
  | .completed => true
  | .cancelled => false
  | .noShow => false

/-- The date-overlap clause of the allocator query:
`checkIn: { $lte: checkOut }, checkOut: { $gte: checkIn }` — booking `b`
overlaps the requested range `[cin, cout]` iff
`b.checkIn <= cout AND b.checkOut >= cin` (inclusive boundaries). -/
def overlapsRange (b : Booking) (cin cout : Int) : Bool :=
  decide (b.checkIn ≤ cout) && decide (b.checkOut ≥ cin)

/-- The full allocator query predicate: same apartment, overlapping dates,
status in {confirmed, checked-in, completed}, a non-null room number, and
not the excluded booking id. -/
def occupancyQuery (aid : Nat) (cin cout : Int) (excl : Option Nat) (b : Booking) : Bool :=
  b.apartmentId == aid &&
  overlapsRange b cin cout &&
  countsTowardOccupancy b.bookingStatus &&
  b.roomNumber.isSome &&
  (match excl with
   | some e => b.id != e
   | none => true)

/-- The set of occupied room numbers built from the query result
(`new Set(overlappingBookings.map(b => b.roomNumber))`). -/
def occupiedRooms (db : DB) (aid : Nat) (cin cout : Int) (excl : Option Nat) : List Nat :=
  (db.bookings.filter (occupancyQuery aid cin cout excl)).filterMap (fun b => b.roomNumber)

/-- The ascending scan `for (roomNum = start; count rooms; roomNum++)
if (!occupied.has(roomNum)) return roomNum`. -/
def firstFreeFrom (occupied : List Nat) : Nat → Nat → Option Nat
  | _, 0 => none
  | start, count + 1 =>
      if start ∈ occupied then firstFreeFrom occupied (start + 1) count else some start

/-- Typed failures of `getNextAvailableRoom` (the source throws `Error`
objects; `noRoomsAvailable` carries the total room count interpolated into
the user-facing message). -/
inductive RoomError where
  | apartmentNotFound
  | noRoomsAvailable (totalRooms : Nat)
deriving DecidableEq, Repr

/-- `getNextAvailableRoom(apartmentId, checkIn, checkOut, excludeBookingId?)`:
look up the apartment, collect occupied rooms of overlapping bookings with
assigned rooms, and return the first free room number in `1..totalRooms`,
else fail with the total room count. -/
def getNextAvailableRoom (db : DB) (aid : Nat) (cin cout : Int) (excl : Option Nat) :
    Except RoomError Nat :=
  match findApartment db aid with
  | none => .error .apartmentNotFound
  | some apartment =>
      match firstFreeFrom (occupiedRooms db aid cin cout excl) 1 apartment.totalRooms with
      | some r => .ok r
      | none => .error (.noRoomsAvailable apartment.totalRooms)

/-- Failures of `updateBookingStatus`. `alreadyCheckedIn` carries the
existing room number and check-in time returned in the 400 payload. -/
inductive UpdateError where
  | invalidStatus
  | bookingNotFound
  | alreadyCheckedIn (roomNumber : Option Nat) (checkInTime : Option Int)
  | notAuthorized
  | roomUnavailable (e : RoomError)
deriving DecidableEq, Repr

/-- `updateBookingStatus(id, status)` (owner/admin check-in and check-out):
reject statuses outside the allowed list, reject a second check-in of an
already checked-in booking, reject unauthorized callers, assign a room on
check-in when none is assigned yet, stamp `checkOutTime` on completion
when checked in and not yet stamped, and save. Errors return before any
save, so the stores are untouched on failure. -/
def updateBookingStatus (db : DB) (bid : Nat) (status : BookingStatus)
    (isOwnerOrAdmin : Bool) (now : Int) : Except UpdateError (DB × Booking) :=
  if status = .noShow then .error .invalidStatus
  else
    match findBooking db bid with
    | none => .error .bookingNotFound
    | some booking =>
        if status = .checkedIn ∧ booking.bookingStatus = .checkedIn then
          .error (.alreadyCheckedIn booking.roomNumber booking.checkInTime)
        else if ¬ isOwnerOrAdmin then .error .notAuthorized
        else if status = .checkedIn ∧ booking.roomNumber = none then
          match getNextAvailableRoom db booking.apartmentId booking.checkIn booking.checkOut
              (some booking.id) with
          | .error e => .error (.roomUnavailable e)
          | .ok r =>
              let b := { booking with
                bookingStatus := status, roomNumber := some r, checkInTime := some now }
              .ok (saveBooking db b, b)
        else
          let b1 := { booking with bookingStatus := status }
          let b2 :=
            if status = .completed ∧ b1.checkInTime ≠ none ∧ b1.checkOutTime = none then
              { b1 with checkOutTime := some now }
            else b1
          .ok (saveBooking db b2, b2)

/-- Failures of `cancelBooking`. -/
inductive CancelError where
  | bookingNotFound
  | notAuthorized
  | alreadyCancelled
  | completedBooking
  | within24Hours
deriving DecidableEq, Repr

/-- Milliseconds in 24 hours; `hoursUntilCheckIn < 24` in the source is
the real-number comparison `(checkIn - now) / 3600000 < 24`, which is
exactly `checkIn - now < 86400000`. -/
def cancelLeadTimeMs : Int := 24 * 60 * 60 * 1000

/-- `cancelBooking(id)`: guest/admin only; rejects bookings already
cancelled or completed and cancellations within 24 hours of check-in;
otherwise sets the status to cancelled, saves, and increments the
apartment's `availableRooms` counter. -/
def cancelBooking (db : DB) (bid : Nat) (isGuestOrAdmin : Bool) (now : Int) :
    Except CancelError (DB × Booking) :=
  match findBooking db bid with
  | none => .error .bookingNotFound
  | some booking =>
      if ¬ isGuestOrAdmin then .error .notAuthorized
      else if booking.bookingStatus = .cancelled then .error .alreadyCancelled
      else if booking.bookingStatus = .completed then .error .completedBooking
      else if booking.checkIn - now < cancelLeadTimeMs then .error .within24Hours
      else
        let b := { booking with bookingStatus := .cancelled }
        let db1 := saveBooking db b
        let db2 :=
          match findApartment db1 b.apartmentId with
          | some apt => saveApartment db1 { apt with availableRooms := apt.availableRooms + 1 }
          | none => db1
        .ok (db2, b)

/-- Failures of `selfCheckout`. `notCheckedIn` carries the current status
interpolated into the message; `alreadyCheckedOut` carries the stored
checkout time. -/
inductive SelfCheckoutError where
  | bookingNotFound
  | notYourBooking
  | notCheckedIn (current : BookingStatus)
  | alreadyCheckedOut (t : Int)
deriving DecidableEq, Repr

/-- `selfCheckout(id)` (renter-initiated checkout): the guest only; valid
only from `checked-in` and only when `checkOutTime` is not yet set; sets
the status to completed with `checkOutTime = now` and saves. -/
def selfCheckout (db : DB) (bid : Nat) (isGuest : Bool) (now : Int) :
    Except SelfCheckoutError (DB × Booking) :=
  match findBooking db bid with
  | none => .error .bookingNotFound
  | some booking =>
      if ¬ isGuest then .error .notYourBooking
      else if booking.bookingStatus ≠ .checkedIn then
        .error (.notCheckedIn booking.bookingStatus)
      else
        match booking.checkOutTime with
        | some t => .error (.alreadyCheckedOut t)
        | none =>
            let b := { booking with bookingStatus := .completed, checkOutTime := some now }
            .ok (saveBooking db b, b)

/-- Failures of `createBooking`. `ownerNotEligible` collapses the three
owner-related rejections (owner missing, owner suspended, payment account
not verified / incomplete), which read the out-of-scope User store. -/
inductive CreateError where
  | apartmentNotFound
  | apartmentInactive
  | ownerNotEligible
  | checkInInPast
  | invalidDateRange
  | noRooms (e : RoomError)
deriving DecidableEq, Repr

/-- The ticket code built inline by `createBooking`:
`BK${Date.now()}${Math.random().toString(36).substr(2, 6).toUpperCase()}`.
The caller-supplied `randomStr` stands for the six-character random
suffix. -/
def makeTicketCode (timestamp : Int) (randomStr : String) : String :=
  "BK" ++ toString timestamp ++ randomStr

/-- `createBooking`: validate the apartment (exists, active), the owner
(modelled by `ownerEligible`), and the dates (`checkIn >= today`,
`checkOut > checkIn`); confirm availability by calling the allocator
without persisting a room; then persist a new booking in `confirmed`
state with no room number and the inline ticket code. -/
def createBooking (db : DB) (aid gid : Nat) (cin cout today : Int)
    (ownerEligible : Bool) (timestamp : Int) (randomStr : String) :
    Except CreateError (DB × Booking) :=
  match findApartment db aid with
  | none => .error .apartmentNotFound
  | some apartment =>
      if ¬ apartment.isActive then .error .apartmentInactive
      else if ¬ ownerEligible then .error .ownerNotEligible
      else if cin < today then .error .checkInInPast
      else if cout ≤ cin then .error .invalidDateRange
      else
        match getNextAvailableRoom db aid cin cout none with
        | .error e => .error (.noRooms e)
        | .ok _ =>
            let booking : Booking :=
              { id := db.nextId, apartmentId := aid, guestId := gid,
                checkIn := cin, checkOut := cout, bookingStatus := .confirmed,
                roomNumber := none, checkInTime := none, checkOutTime := none,
                ticketCode := makeTicketCode timestamp randomStr }
            .ok ({ db with bookings := db.bookings ++ [booking], nextId := db.nextId + 1 },
                 booking)

/-- The character pool of the Booking model's `generateTicketCode`. -/
def ticketCodeChars : List Char :=
  "ABCDEFGHIJKLMNOPQRSTUVWXYZ0123456789".toList

/-- The Booking schema's `generateTicketCode`: eight characters drawn from
the 36-character uppercase-alphanumeric pool; `r` stands for the eight
`Math.floor(Math.random() * chars.length)` draws. Used by the pre-save
hook only when the document has no ticket code yet. -/
def generateTicketCode (r : Fin 8 → Fin 36) : String :=
  String.mk ((List.finRange 8).map (fun i =>
    ticketCodeChars.get ⟨(r i).val, lt_of_lt_of_eq (r i).isLt (by rfl)⟩))

/-- The query filter of `AutoCheckoutService.processAutoCheckouts`:
`bookingStatus: 'checked-in', checkOut: { $lte: now },
roomNumber: { $exists: true, $ne: null }`. -/
def autoCheckoutEligible (now : Int) (b : Booking) : Bool :=
  b.bookingStatus = .checkedIn && decide (b.checkOut ≤ now) && b.roomNumber.isSome

/-- The per-booking auto-checkout update: `bookingStatus = 'completed'`,
`checkOutTime = now` (the moment of the forced checkout). -/
def autoCompleted (now : Int) (b : Booking) : Booking :=
  { b with bookingStatus := .completed, checkOutTime := some now }

/-- `AutoCheckoutService.processAutoCheckouts`: find the expired
checked-in bookings with assigned rooms, then for each one independently
set `bookingStatus = 'completed'` and `checkOutTime = now` (the moment of
the forced checkout, not the scheduled `checkOut`) and save; a per-booking
failure (`failures b.id = true`, standing for a throwing save) is caught
and skips only that booking. -/
def processAutoCheckouts (db : DB) (now : Int) (failures : Nat → Bool) : DB :=
  let expired := db.bookings.filter (autoCheckoutEligible now)
  expired.foldl (fun acc b =>
    if failures b.id then acc
    else saveBooking acc (autoCompleted now b)) db

/-- One booking-lifecycle request, with its parameters: booking creation,
an owner/admin status update (check-in / check-out / any allowed status),
guest cancellation, or renter self-checkout. -/
inductive Op where
  | create (aid gid : Nat) (cin cout today : Int) (ownerEligible : Bool)
      (timestamp : Int) (randomStr : String)
  | setStatus (bid : Nat) (status : BookingStatus) (isOwnerOrAdmin : Bool) (now : Int)
  | cancel (bid : Nat) (isGuestOrAdmin : Bool) (now : Int)
  | checkout (bid : Nat) (isGuest : Bool) (now : Int)
deriving Repr

/-- Apply one lifecycle request to the stores: a rejected request leaves
the stores untouched (every endpoint errors out before its first save). -/
def applyOp (db : DB) : Op → DB
  | .create aid gid cin cout today ownerOk ts rs =>
      match createBooking db aid gid cin cout today ownerOk ts rs with
      | .ok (db2, _) => db2
      | .error _ => db
  | .setStatus bid st auth now =>
      match updateBookingStatus db bid st auth now with
      | .ok (db2, _) => db2
      | .error _ => db
  | .cancel bid auth now =>
      match cancelBooking db bid auth now with
      | .ok (db2, _) => db2
      | .error _ => db
  | .checkout bid g now =>
      match selfCheckout db bid g now with
      | .ok (db2, _) => db2
      | .error _ => db

/-- Apply a sequence of lifecycle requests in order. -/
def run (db : DB) : List Op → DB
  | [] => db
  | op :: ops => run (applyOp db op) ops

/-- A status update is revival-free when it does not move a cancelled or
no-show booking that still holds a room number back into a status that
counts toward occupancy (the allocator ignores such stale room numbers,
so reviving the booking can resurrect a reassigned room). All other
requests are unrestricted. -/
def SafeOp (db : DB) : Op → Prop
  | .setStatus bid st _ _ =>
      countsTowardOccupancy st = true →
      ∀ b ∈ findBooking db bid,
        countsTowardOccupancy b.bookingStatus = false → b.roomNumber = none
  | _ => True

/-- Every request of the sequence is revival-free in the state it is
applied to. -/
def SafeRun : DB → List Op → Prop
  | _, [] => True
  | db, op :: ops => SafeOp db op ∧ SafeRun (applyOp db op) ops

/-- The room number of a booking is within `1..totalRooms` of its
apartment (trivially true while no room is assigned). -/
def roomInRange (db : DB) (b : Booking) : Prop :=
  b.roomNumber.isSome = true →
    1 ≤ b.roomNumber.getD 0 ∧
    b.roomNumber.getD 0 ≤ ((findApartment db b.apartmentId).map (fun a => a.totalRooms)).getD 0

/-- No two distinct stored bookings of the same apartment with
overlapping date ranges and statuses that count toward occupancy share a
room number. -/
def NoSharedRooms (db : DB) : Prop :=
  ∀ a ∈ db.bookings, ∀ b ∈ db.bookings,
    a.id ≠ b.id →
    a.apartmentId = b.apartmentId →
    overlapsRange a b.checkIn b.checkOut = true →
    countsTowardOccupancy a.bookingStatus = true →
    countsTowardOccupancy b.bookingStatus = true →
    a.roomNumber.isSome = true →
    a.roomNumber ≠ b.roomNumber

/-- The allocator invariant over the stores: booking and apartment ids
are unique, stored booking ids are below the fresh-id counter, every
assigned room number is within its apartment's capacity, and no two
overlapping occupancy-counting bookings share a room. -/
def DBInv (db : DB) : Prop :=
  (db.bookings.map (fun b => b.id)).Nodup ∧
  (db.apartments.map (fun a => a.id)).Nodup ∧
  (∀ b ∈ db.bookings, b.id < db.nextId) ∧
  (∀ b ∈ db.bookings, roomInRange db b) ∧
  NoSharedRooms db

instance instDecidableRoomInRange (db : DB) (b : Booking) : Decidable (roomInRange db b) := by
  unfold roomInRange
  infer_instance

instance instDecidableNoSharedRooms (db : DB) : Decidable (NoSharedRooms db) := by
  unfold NoSharedRooms
  infer_instance

instance instDecidableDBInv (db : DB) : Decidable (DBInv db) := by
  unfold DBInv
  infer_instance

instance instDecidableSafeOp (db : DB) : (op : Op) → Decidable (SafeOp db op)
  | .create .. => .isTrue trivial
  | .setStatus bid st _ _ =>
      inferInstanceAs (Decidable (countsTowardOccupancy st = true →
        ∀ b ∈ findBooking db bid,
          countsTowardOccupancy b.bookingStatus = false → b.roomNumber = none))
  | .cancel .. => .isTrue trivial
  | .checkout .. => .isTrue trivial

instance instDecidableSafeRun : (db : DB) → (ops : List Op) → Decidable (SafeRun db ops)
  | _, [] => .isTrue trivial
  | db, op :: ops =>
      @instDecidableAnd _ _ (instDecidableSafeOp db op)
        (instDecidableSafeRun (applyOp db op) ops)

instance instDecidableEqExcept {ε α : Type} [DecidableEq ε] [DecidableEq α] :
    DecidableEq (Except ε α) := fun x y =>
  match x, y with
  | .ok a, .ok b =>
      if h : a = b then .isTrue (by rw [h])
      else .isFalse (fun hc => h (Except.ok.inj hc))
  | .ok _, .error _ => .isFalse (fun hc => Except.noConfusion hc)
  | .error _, .ok _ => .isFalse (fun hc => Except.noConfusion hc)
  | .error a, .error b =>
      if h : a = b then .isTrue (by rw [h])
      else .isFalse (fun hc => h (Except.error.inj hc))

/-- n repeated `createBooking` calls with the same apartment and date
range (one guest after another reserving the same dates). -/
def createN (aid gid : Nat) (cin cout today ts : Int) (rs : String) :
    Nat → DB → Except CreateError DB
  | 0, db => .ok db
  | n + 1, db =>
      match createBooking db aid gid cin cout today true ts rs with
      | .error e => .error e
      | .ok (db2, _) => createN aid gid cin cout today ts rs n db2

/-- Milliseconds in a day, for concrete test states. -/
def dayMs (k : Int) : Int := k * 86400000

/-- A one-apartment store with the given room count (id 1, active). -/
def exApartment (n : Nat) : Apartment :=
  { id := 1, totalRooms := n, availableRooms := Int.ofNat n, isActive := true }

/-- A booking for apartment 1 with the given id, status, room and dates. -/
def exBooking (i : Nat) (st : BookingStatus) (room : Option Nat) (cin cout : Int) : Booking :=
  { id := i, apartmentId := 1, guestId := 0, checkIn := cin, checkOut := cout,
    bookingStatus := st, roomNumber := room, checkInTime := none, checkOutTime := none,
    ticketCode := "TICKET" }

/-- Empty store over a single one-room apartment. -/
def exEmptyDB : DB := { apartments := [exApartment 1], bookings := [], nextId := 1 }

/-- The double-allocation scenario: guest A books days 10-20 and guest B
books days 12-18 of the same one-room apartment; A is checked in (room 1),
then cancels early enough (day 1, more than 24h before check-in), then B
is checked in. -/
def doubleAllocOps : List Op :=
  [ .create 1 7 (dayMs 10) (dayMs 20) 0 true 1000 "ABC123",
    .create 1 8 (dayMs 12) (dayMs 18) 0 true 1001 "DEF456",
    .setStatus 1 .checkedIn true (dayMs 1),
    .cancel 1 true (dayMs 1),
    .setStatus 2 .checkedIn true (dayMs 2) ]

/-- A store holding one completed booking (room 1, checked in and out). -/
def exCompletedDB : DB :=
  { apartments := [exApartment 1],
    bookings := [{ exBooking 1 .completed (some 1) (dayMs 10) (dayMs 20) with
                   checkInTime := some 5, checkOutTime := some 6 }],
    nextId := 2 }

/-- A store holding one checked-in booking (room 1) whose scheduled
check-in date is day 10 (so it is more than 24h away at day 1). -/
def exCheckedInDB : DB :=
  { apartments := [exApartment 1],
    bookings := [{ exBooking 1 .checkedIn (some 1) (dayMs 10) (dayMs 20) with
                   checkInTime := some 5 }],
    nextId := 2 }

/-- A store holding one checked-in booking past its checkout date but with
no assigned room number. -/
def exRoomlessCheckedInDB : DB :=
  { apartments := [exApartment 1],
    bookings := [exBooking 1 .checkedIn none 0 5],
    nextId := 2 }

/-- A store where rooms 2 and 3 of a four-room apartment are occupied on
the queried dates. -/
def exOccupied23DB : DB :=
  { apartments := [exApartment 4],
    bookings := [exBooking 1 .checkedIn (some 2) 0 100,
                 exBooking 2 .confirmed (some 3) 50 150],
    nextId := 3 }

/-- A store where all three rooms of a three-room apartment are occupied
on the queried dates. -/
def exFullDB : DB :=
  { apartments := [exApartment 3],
    bookings := [exBooking 1 .checkedIn (some 1) 0 100,
                 exBooking 2 .confirmed (some 2) 50 150,
                 exBooking 3 .completed (some 3) 20 80],
    nextId := 4 }

/-- A store whose single one-room apartment has a booking on days 15-20
holding room 1: a query for days 10-15 (checkout on the other booking's
check-in day) finds it occupied under the inclusive overlap rule. -/
def exAdjacentDB : DB :=
  { apartments := [exApartment 1],
    bookings := [exBooking 1 .confirmed (some 1) (dayMs 15) (dayMs 20)],
    nextId := 2 }

/-! ### Basic lemmas about the allocator -/

theorem overlapsRange_iff (b : Booking) (cin cout : Int) :
    overlapsRange b cin cout = true ↔ b.checkIn ≤ cout ∧ b.checkOut ≥ cin := by
  simp [overlapsRange]

theorem overlapsRange_symm (a b : Booking) :
    overlapsRange a b.checkIn b.checkOut = true ↔
      overlapsRange b a.checkIn a.checkOut = true := by
  rw [overlapsRange_iff, overlapsRange_iff]
  omega

theorem firstFreeFrom_some_spec (occ : List Nat) :
    ∀ (count start r : Nat), firstFreeFrom occ start count = some r →
      start ≤ r ∧ r < start + count ∧ r ∉ occ ∧ ∀ k, start ≤ k → k < r → k ∈ occ := by
  intro count
  induction count with
  | zero => intro start r h; simp [firstFreeFrom] at h
  | succ n ih =>
      intro start r h
      rw [firstFreeFrom] at h
      by_cases hmem : start ∈ occ
      · rw [if_pos hmem] at h
        obtain ⟨h1, h2, h3, h4⟩ := ih (start + 1) r h
        refine ⟨by omega, by omega, h3, fun k hk1 hk2 => ?_⟩
        by_cases hk : k = start
        · exact hk ▸ hmem
        · exact h4 k (by omega) hk2
      · rw [if_neg hmem] at h
        obtain rfl : start = r := Option.some.inj h
        exact ⟨Nat.le_refl _, by omega, hmem,
          fun k hk1 hk2 => ((Nat.not_lt.mpr hk1) hk2).elim⟩

theorem firstFreeFrom_eq_none (occ : List Nat) :
    ∀ (count start : Nat), (∀ k, start ≤ k → k < start + count → k ∈ occ) →
      firstFreeFrom occ start count = none := by
  intro count
  induction count with
  | zero => intro start _; rfl
  | succ n ih =>
      intro start h
      rw [firstFreeFrom]
      rw [if_pos (h start (Nat.le_refl _) (by omega))]
      exact ih (start + 1) (fun k hk1 hk2 => h k (by omega) (by omega))

theorem firstFreeFrom_none_spec (occ : List Nat) :
    ∀ (count start : Nat), firstFreeFrom occ start count = none →
      ∀ k, start ≤ k → k < start + count → k ∈ occ := by
  intro count
  induction count with
  | zero => intro start _ k hk1 hk2; omega
  | succ n ih =>
      intro start h k hk1 hk2
      rw [firstFreeFrom] at h
      by_cases hmem : start ∈ occ
      · rw [if_pos hmem] at h
        by_cases hk : k = start
        · exact hk ▸ hmem
        · exact ih (start + 1) h k (by omega) (by omega)
      · rw [if_neg hmem] at h
        exact (Option.some_ne_none start h).elim

theorem mem_occupiedRooms (db : DB) (aid : Nat) (cin cout : Int) (excl : Option Nat)
    (r : Nat) :
    r ∈ occupiedRooms db aid cin cout excl ↔
      ∃ b, b ∈ db.bookings ∧ occupancyQuery aid cin cout excl b = true ∧
        b.roomNumber = some r := by
  unfold occupiedRooms
  simp only [List.mem_filterMap, List.mem_filter]
  constructor
  · rintro ⟨b, ⟨hb, hq⟩, hr⟩
    exact ⟨b, hb, hq, hr⟩
  · rintro ⟨b, hb, hq, hr⟩
    exact ⟨b, ⟨hb, hq⟩, hr⟩

/-- Claim C2: the allocator always returns the lowest-numbered free room:
when the apartment exists, an `ok r` answer means `r` is in `[1, totalRooms]`,
unoccupied, and every smaller room number is occupied; when every room in
`[1, totalRooms]` is occupied the answer is the `noRoomsAvailable` error
carrying the total room count; and when some room is free the allocator
does answer `ok`. (Determinism over a fixed booking set is inherent: the
embedding is a pure function of the store.) -/
theorem getNextAvailableRoom_lowest_free (db : DB) (aid : Nat) (cin cout : Int)
    (excl : Option Nat) (apt : Apartment) (hapt : findApartment db aid = some apt) :
    (∀ r, getNextAvailableRoom db aid cin cout excl = .ok r →
        1 ≤ r ∧ r ≤ apt.totalRooms ∧ r ∉ occupiedRooms db aid cin cout excl ∧
        ∀ k, 1 ≤ k → k < r → k ∈ occupiedRooms db aid cin cout excl) ∧
    ((∀ k, 1 ≤ k → k ≤ apt.totalRooms → k ∈ occupiedRooms db aid cin cout excl) →
        getNextAvailableRoom db aid cin cout excl =
          .error (.noRoomsAvailable apt.totalRooms)) ∧
    ((∃ k, 1 ≤ k ∧ k ≤ apt.totalRooms ∧ k ∉ occupiedRooms db aid cin cout excl) →
        ∃ r, getNextAvailableRoom db aid cin cout excl = .ok r) := by
  have hmain : ∀ res, firstFreeFrom (occupiedRooms db aid cin cout excl) 1 apt.totalRooms = res →
      getNextAvailableRoom db aid cin cout excl =
        (match res with
         | some r => .ok r
         | none => .error (.noRoomsAvailable apt.totalRooms)) := by
    intro res hres
    unfold getNextAvailableRoom
    rw [hapt]
    dsimp only
    rw [hres]
  cases hff : firstFreeFrom (occupiedRooms db aid cin cout excl) 1 apt.totalRooms with
  | none =>
      have key : getNextAvailableRoom db aid cin cout excl =
          .error (.noRoomsAvailable apt.totalRooms) := hmain _ hff
      refine ⟨fun r h => ?_, fun _ => key, ?_⟩
      · rw [key] at h
        exact absurd h (by simp)
      · rintro ⟨k, hk1, hk2, hk3⟩
        exact (hk3 (firstFreeFrom_none_spec _ _ _ hff k hk1 (by omega))).elim
  | some r0 =>
      have key : getNextAvailableRoom db aid cin cout excl = .ok r0 := hmain _ hff
      obtain ⟨h1, h2, h3, h4⟩ := firstFreeFrom_some_spec _ _ _ _ hff
      refine ⟨fun r h => ?_, fun hall => ?_, fun _ => ⟨r0, key⟩⟩
      · rw [key] at h
        obtain rfl : r0 = r := by simpa using h
        exact ⟨h1, by omega, h3, fun k hk1 hk2 => h4 k hk1 hk2⟩
      · exact (h3 (hall r0 h1 (by omega))).elim

/-- Witness for C2 at concrete stores: with rooms 2 and 3 occupied in a
four-room apartment the allocator returns room 1 (and the minimality
facts), and with all three rooms of a three-room apartment occupied it
fails with the room count 3. -/
theorem getNextAvailableRoom_lowest_free_witness :
    (1 ≤ 1 ∧ 1 ≤ 4 ∧ 1 ∉ occupiedRooms exOccupied23DB 1 10 60 none ∧
      ∀ k, 1 ≤ k → k < 1 → k ∈ occupiedRooms exOccupied23DB 1 10 60 none) ∧
    getNextAvailableRoom exFullDB 1 10 60 none = .error (.noRoomsAvailable 3) :=
  ⟨(getNextAvailableRoom_lowest_free exOccupied23DB 1 10 60 none (exApartment 4)
      (by decide)).1 1 (by decide),
   (getNextAvailableRoom_lowest_free exFullDB 1 10 60 none (exApartment 3)
      (by decide)).2.1 (by
        intro k h1 h2
        have h3 : k ≤ 3 := h2
        interval_cases k <;> decide)⟩

/-- Claim C3: the allocator treats two date ranges as overlapping iff
`a1 <= b2 AND a2 >= b1` (inclusive boundaries); in particular a booking
whose date range starts exactly where the queried range ends counts as
overlapping, so in a one-room apartment a booking on days 15-20 holding
room 1 makes the query for days 10-15 find room 1 occupied and fail. -/
theorem allocator_overlap_inclusive :
    (∀ (b : Booking) (cin cout : Int),
        overlapsRange b cin cout = true ↔ b.checkIn ≤ cout ∧ b.checkOut ≥ cin) ∧
    (∀ (b : Booking) (cin : Int), cin ≤ b.checkIn → b.checkIn ≤ b.checkOut →
        overlapsRange b cin b.checkIn = true) ∧
    occupiedRooms exAdjacentDB 1 (dayMs 10) (dayMs 15) none = [1] ∧
    getNextAvailableRoom exAdjacentDB 1 (dayMs 10) (dayMs 15) none =
      .error (.noRoomsAvailable 1) := by
  refine ⟨overlapsRange_iff, ?_, by decide, by decide⟩
  intro b cin h1 h2
  rw [overlapsRange_iff]
  omega

/-- Witness for C3: the booking on days 15-20 is counted as overlapping
the range ending on day 15. -/
theorem allocator_overlap_inclusive_witness :
    overlapsRange (exBooking 1 .confirmed (some 1) (dayMs 15) (dayMs 20))
      (dayMs 10) (dayMs 15) = true := by
  have h := allocator_overlap_inclusive.2.1
    (exBooking 1 .confirmed (some 1) (dayMs 15) (dayMs 20)) (dayMs 10)
    (by decide) (by decide)
  simpa [exBooking] using h

/-! ### Control-flow characterizations of the lifecycle endpoints -/

theorem updateBookingStatus_ok_spec (db : DB) (bid : Nat) (st : BookingStatus)
    (auth : Bool) (now : Int) (db2 : DB) (b2 : Booking)
    (h : updateBookingStatus db bid st auth now = .ok (db2, b2)) :
    ∃ booking, findBooking db bid = some booking ∧
      st ≠ .noShow ∧ auth = true ∧
      ¬ (st = .checkedIn ∧ booking.bookingStatus = .checkedIn) ∧
      db2 = saveBooking db b2 ∧
      b2.id = booking.id ∧ b2.apartmentId = booking.apartmentId ∧
      b2.checkIn = booking.checkIn ∧ b2.checkOut = booking.checkOut ∧
      b2.bookingStatus = st ∧
      ((st = .checkedIn ∧ booking.roomNumber = none ∧
          ∃ r, getNextAvailableRoom db booking.apartmentId booking.checkIn
              booking.checkOut (some booking.id) = .ok r ∧
            b2.roomNumber = some r ∧ b2.checkInTime = some now ∧
            b2.checkOutTime = booking.checkOutTime ∧
            b2 = { booking with bookingStatus := st, roomNumber := some r, checkInTime := some now }) ∨
        (¬ (st = .checkedIn ∧ booking.roomNumber = none) ∧
          b2.roomNumber = booking.roomNumber ∧ b2.checkInTime = booking.checkInTime ∧
          (b2.checkOutTime = booking.checkOutTime ∨ b2.checkOutTime = some now) ∧
          (b2 = { booking with bookingStatus := st } ∨
           b2 = { booking with bookingStatus := st, checkOutTime := some now }))) := by
  unfold updateBookingStatus at h
  split at h
  · exact absurd h (by simp)
  · rename_i hns
    cases hfb : findBooking db bid with
    | none => rw [hfb] at h; exact absurd h (by simp)
    | some booking =>
        rw [hfb] at h
        dsimp only at h
        refine ⟨booking, rfl, hns, ?_⟩
        split at h
        · exact absurd h (by simp)
        · rename_i hguard
          split at h
          · exact absurd h (by simp)
          · rename_i hauth
            have hauth2 : auth = true := by
              by_contra hc
              exact hauth (by simpa using hc)
            split at h
            · rename_i hassign
              cases hroom : getNextAvailableRoom db booking.apartmentId booking.checkIn
                  booking.checkOut (some booking.id) with
              | error e => rw [hroom] at h; exact absurd h (by simp)
              | ok r =>
                  rw [hroom] at h
                  dsimp only at h
                  simp only [Except.ok.injEq, Prod.mk.injEq] at h
                  obtain ⟨hdb2, hb2⟩ := h
                  subst hb2
                  refine ⟨hauth2, hguard, hdb2.symm, rfl, rfl, rfl, rfl, rfl, ?_⟩
                  exact Or.inl ⟨hassign.1, hassign.2, r, rfl, rfl, rfl, rfl, rfl⟩
            · rename_i hnoassign
              simp only [Except.ok.injEq, Prod.mk.injEq] at h
              obtain ⟨hdb2, hb2⟩ := h
              subst hb2
              refine ⟨hauth2, hguard, hdb2.symm, ?_⟩
              split
              · rename_i hcomplete
                exact ⟨rfl, rfl, rfl, rfl, rfl,
                  Or.inr ⟨hnoassign, rfl, rfl, Or.inr rfl, Or.inr rfl⟩⟩
              · exact ⟨rfl, rfl, rfl, rfl, rfl,
                  Or.inr ⟨hnoassign, rfl, rfl, Or.inl rfl, Or.inl rfl⟩⟩

theorem cancelBooking_ok_spec (db : DB) (bid : Nat) (auth : Bool) (now : Int)
    (db2 : DB) (b2 : Booking)
    (h : cancelBooking db bid auth now = .ok (db2, b2)) :
    ∃ booking, findBooking db bid = some booking ∧ auth = true ∧
      booking.bookingStatus ≠ .cancelled ∧ booking.bookingStatus ≠ .completed ∧
      cancelLeadTimeMs ≤ booking.checkIn - now ∧
      b2 = { booking with bookingStatus := .cancelled } ∧
      db2 = (match findApartment (saveBooking db b2) b2.apartmentId with
             | some apt =>
                 saveApartment (saveBooking db b2)
                   { apt with availableRooms := apt.availableRooms + 1 }
             | none => saveBooking db b2) := by
  unfold cancelBooking at h
  cases hfb : findBooking db bid with
  | none => rw [hfb] at h; exact absurd h (by simp)
  | some booking =>
      rw [hfb] at h
      dsimp only at h
      split at h
      · exact absurd h (by simp)
      · rename_i hauth
        have hauth2 : auth = true := by
          by_contra hc
          exact hauth (by simpa using hc)
        split at h
        · exact absurd h (by simp)
        · rename_i hcanc
          split at h
          · exact absurd h (by simp)
          · rename_i hcomp
            split at h
            · exact absurd h (by simp)
            · rename_i hlead
              simp only [Except.ok.injEq, Prod.mk.injEq] at h
              obtain ⟨hdb2, hb2⟩ := h
              subst hb2
              exact ⟨booking, rfl, hauth2, hcanc, hcomp, by omega, rfl, hdb2.symm⟩

theorem selfCheckout_ok_spec (db : DB) (bid : Nat) (g : Bool) (now : Int)
    (db2 : DB) (b2 : Booking)
    (h : selfCheckout db bid g now = .ok (db2, b2)) :
    ∃ booking, findBooking db bid = some booking ∧ g = true ∧
      booking.bookingStatus = .checkedIn ∧ booking.checkOutTime = none ∧
      b2 = { booking with bookingStatus := .completed, checkOutTime := some now } ∧
      db2 = saveBooking db b2 := by
  unfold selfCheckout at h
  cases hfb : findBooking db bid with
  | none => rw [hfb] at h; exact absurd h (by simp)
  | some booking =>
      rw [hfb] at h
      dsimp only at h
      split at h
      · exact absurd h (by simp)
      · rename_i hg
        have hg2 : g = true := by
          by_contra hc
          exact hg (by simpa using hc)
        split at h
        · exact absurd h (by simp)
        · rename_i hst
          have hst2 : booking.bookingStatus = .checkedIn := by
            by_contra hc
            exact hst hc
          split at h
          · exact absurd h (by simp)
          · rename_i t hco
            simp only [Except.ok.injEq, Prod.mk.injEq] at h
            obtain ⟨hdb2, hb2⟩ := h
            subst hb2
            exact ⟨booking, rfl, hg2, hst2, hco, rfl, hdb2.symm⟩

theorem createBooking_ok_spec (db : DB) (aid gid : Nat) (cin cout today : Int)
    (ownerOk : Bool) (ts : Int) (rs : String) (db2 : DB) (bk : Booking)
    (h : createBooking db aid gid cin cout today ownerOk ts rs = .ok (db2, bk)) :
    ∃ apartment, findApartment db aid = some apartment ∧
      apartment.isActive = true ∧ ownerOk = true ∧ today ≤ cin ∧ cin < cout ∧
      (∃ r, getNextAvailableRoom db aid cin cout none = .ok r) ∧
      bk = { id := db.nextId, apartmentId := aid, guestId := gid,
             checkIn := cin, checkOut := cout, bookingStatus := .confirmed,
             roomNumber := none, checkInTime := none, checkOutTime := none,
             ticketCode := makeTicketCode ts rs } ∧
      db2 = { db with bookings := db.bookings ++ [bk], nextId := db.nextId + 1 } := by
  unfold createBooking at h
  cases hfa : findApartment db aid with
  | none => rw [hfa] at h; exact absurd h (by simp)
  | some apartment =>
      rw [hfa] at h
      dsimp only at h
      split at h
      · exact absurd h (by simp)
      · rename_i hact
        have hact2 : apartment.isActive = true := by
          by_contra hc
          exact hact (by simpa using hc)
        split at h
        · exact absurd h (by simp)
        · rename_i hown
          have hown2 : ownerOk = true := by
            by_contra hc
            exact hown (by simpa using hc)
          split at h
          · exact absurd h (by simp)
          · rename_i hpast
            split at h
            · exact absurd h (by simp)
            · rename_i hrange
              cases hroom : getNextAvailableRoom db aid cin cout none with
              | error e => rw [hroom] at h; exact absurd h (by simp)
              | ok r =>
                  rw [hroom] at h
                  dsimp only at h
                  simp only [Except.ok.injEq, Prod.mk.injEq] at h
                  obtain ⟨hdb2, hbk⟩ := h
                  subst hbk
                  exact ⟨apartment, rfl, hact2, hown2, by omega, by omega,
                    ⟨r, rfl⟩, rfl, hdb2.symm⟩

/-- Claim C7: a second check-in of a booking already in `checked-in`
state is rejected with the specific already-checked-in error carrying the
existing room number and check-in time (and, being an error, persists
nothing); and any successful `updateBookingStatus` call leaves an existing
room assignment unchanged — allocation happens only when the booking has
no room number yet. -/
theorem checkIn_idempotency (db : DB) (bid : Nat) (booking : Booking)
    (hfind : findBooking db bid = some booking) (auth : Bool) (now : Int) :
    (booking.bookingStatus = .checkedIn →
        updateBookingStatus db bid .checkedIn auth now =
          .error (.alreadyCheckedIn booking.roomNumber booking.checkInTime)) ∧
    (∀ st db2 b2 r, updateBookingStatus db bid st auth now = .ok (db2, b2) →
        booking.roomNumber = some r → b2.roomNumber = some r) := by
  constructor
  · intro hst
    unfold updateBookingStatus
    rw [if_neg (by decide)]
    rw [hfind]
    dsimp only
    rw [if_pos ⟨rfl, hst⟩]
  · intro st db2 b2 r hok hroom
    obtain ⟨bk, hfb, _, _, _, _, _, _, _, _, _, hcases⟩ :=
      updateBookingStatus_ok_spec _ _ _ _ _ _ _ hok
    rw [hfind] at hfb
    obtain rfl : booking = bk := Option.some.inj hfb
    rcases hcases with ⟨_, hnone, _⟩ | ⟨_, heq, _⟩
    · rw [hroom] at hnone
      exact absurd hnone (by simp)
    · rw [heq, hroom]

/-- Witness for C7: re-checking-in the checked-in booking of
`exCheckedInDB` yields the already-checked-in error carrying room 1 and
the stored check-in time 5. -/
theorem checkIn_idempotency_witness :
    updateBookingStatus exCheckedInDB 1 .checkedIn true 99 =
      .error (.alreadyCheckedIn (some 1) (some 5)) := by
  have h := (checkIn_idempotency exCheckedInDB 1
      ({ exBooking 1 .checkedIn (some 1) (dayMs 10) (dayMs 20) with
         checkInTime := some 5 }) rfl true 99).1 rfl
  simpa [exBooking] using h

/-- Counterexample for C4: the claim says no lifecycle operation succeeds
on a `completed` booking, but `updateBookingStatus` has no terminality
guard: applying status `checked-in` to the completed booking of
`exCompletedDB` succeeds and moves it back to `checked-in`. -/
theorem checkout_terminality_counterexample :
    (updateBookingStatus exCompletedDB 1 .checkedIn true 99).toOption.map
        (fun p => p.2.bookingStatus) = some .checkedIn := by decide

/-- Claim C4 (amended): after `completed`, `cancelBooking` and
`selfCheckout` are rejected with specific errors (persisting nothing),
but `updateBookingStatus` succeeds on a completed booking: a second
`completed` update returns ok, and a `checked-in` update returns ok and
re-opens the booking (keeping its room number). -/
theorem checkout_terminality_partial (db : DB) (bid : Nat) (b : Booking)
    (hfind : findBooking db bid = some b) (hst : b.bookingStatus = .completed)
    (now : Int) :
    cancelBooking db bid true now = .error .completedBooking ∧
    selfCheckout db bid true now = .error (.notCheckedIn .completed) ∧
    (∃ db2 b2, updateBookingStatus db bid .completed true now = .ok (db2, b2) ∧
        b2.bookingStatus = .completed) ∧
    (∀ r, b.roomNumber = some r →
        ∃ db2 b2, updateBookingStatus db bid .checkedIn true now = .ok (db2, b2) ∧
          b2.bookingStatus = .checkedIn ∧ b2.roomNumber = some r) := by
  refine ⟨?_, ?_, ?_, ?_⟩
  · unfold cancelBooking
    rw [hfind]
    dsimp only
    rw [if_neg (by simp)]
    rw [if_neg (by simp [hst])]
    rw [if_pos hst]
  · unfold selfCheckout
    rw [hfind]
    dsimp only
    rw [if_neg (by simp)]
    rw [if_pos (by simp [hst]), hst]
  · unfold updateBookingStatus
    rw [if_neg (by decide)]
    rw [hfind]
    dsimp only
    rw [if_neg (by simp)]
    rw [if_neg (by simp)]
    rw [if_neg (by simp)]
    refine ⟨_, _, rfl, ?_⟩
    dsimp only
    split <;> rfl
  · intro r hroom
    unfold updateBookingStatus
    rw [if_neg (by decide)]
    rw [hfind]
    dsimp only
    rw [if_neg (by simp [hst])]
    rw [if_neg (by simp)]
    rw [if_neg (by simp [hroom])]
    refine ⟨_, _, rfl, ?_⟩
    dsimp only
    rw [if_neg (by simp)]
    exact ⟨rfl, hroom⟩

/-- Witness for C4 (amended) at `exCompletedDB`: cancel and self-checkout
reject the completed booking, and a `checked-in` update succeeds keeping
room 1. -/
theorem checkout_terminality_partial_witness :
    cancelBooking exCompletedDB 1 true 99 = .error .completedBooking ∧
    selfCheckout exCompletedDB 1 true 99 = .error (.notCheckedIn .completed) ∧
    (∃ db2 b2, updateBookingStatus exCompletedDB 1 .checkedIn true 99 = .ok (db2, b2) ∧
        b2.bookingStatus = .checkedIn ∧ b2.roomNumber = some 1) := by
  have h := checkout_terminality_partial exCompletedDB 1
    ({ exBooking 1 .completed (some 1) (dayMs 10) (dayMs 20) with
       checkInTime := some 5, checkOutTime := some 6 }) rfl rfl 99
  exact ⟨h.1, h.2.1, h.2.2.2 1 rfl⟩

/-- Counterexample for C5: the claim says `cancelBooking` rejects every
booking whose status is not `confirmed`, in particular `checked-in`; but
cancelling the checked-in booking of `exCheckedInDB` (more than 24h
before its scheduled check-in date) succeeds and sets it to `cancelled`. -/
theorem cancel_only_confirmed_counterexample :
    (cancelBooking exCheckedInDB 1 true (dayMs 1)).toOption.map
        (fun p => p.2.bookingStatus) = some .cancelled := by decide

/-- Claim C5 (amended): `cancelBooking` rejects bookings that are already
`cancelled` or `completed` and cancellations within 24 hours of the
scheduled check-in, but it has no `checked-in` guard: a checked-in
booking outside the 24-hour window is cancelled successfully. -/
theorem cancel_state_guards (db : DB) (bid : Nat) (b : Booking)
    (hfind : findBooking db bid = some b) (now : Int) :
    (b.bookingStatus = .cancelled →
        cancelBooking db bid true now = .error .alreadyCancelled) ∧
    (b.bookingStatus = .completed →
        cancelBooking db bid true now = .error .completedBooking) ∧
    (b.bookingStatus ≠ .cancelled → b.bookingStatus ≠ .completed →
        b.checkIn - now < cancelLeadTimeMs →
        cancelBooking db bid true now = .error .within24Hours) ∧
    (b.bookingStatus = .checkedIn → cancelLeadTimeMs ≤ b.checkIn - now →
        ∃ db2 b2, cancelBooking db bid true now = .ok (db2, b2) ∧
          b2.bookingStatus = .cancelled) := by
  refine ⟨?_, ?_, ?_, ?_⟩
  · intro hst
    unfold cancelBooking
    rw [hfind]
    dsimp only
    rw [if_neg (by simp)]
    rw [if_pos hst]
  · intro hst
    unfold cancelBooking
    rw [hfind]
    dsimp only
    rw [if_neg (by simp)]
    rw [if_neg (by simp [hst])]
    rw [if_pos hst]
  · intro h1 h2 h3
    unfold cancelBooking
    rw [hfind]
    dsimp only
    rw [if_neg (by simp)]
    rw [if_neg h1]
    rw [if_neg h2]
    rw [if_pos h3]
  · intro hst hlead
    unfold cancelBooking
    rw [hfind]
    dsimp only
    rw [if_neg (by simp)]
    rw [if_neg (by simp [hst])]
    rw [if_neg (by simp [hst])]
    rw [if_neg (by omega)]
    exact ⟨_, _, rfl, rfl⟩

/-- Witness for C5 (amended) at `exCheckedInDB`: the checked-in booking
(check-in at day 10, cancelled at day 1, more than 24h ahead) is
successfully cancelled. -/
theorem cancel_state_guards_witness :
    ∃ db2 b2, cancelBooking exCheckedInDB 1 true (dayMs 1) = .ok (db2, b2) ∧
      b2.bookingStatus = .cancelled :=
  (cancel_state_guards exCheckedInDB 1
    ({ exBooking 1 .checkedIn (some 1) (dayMs 10) (dayMs 20) with
       checkInTime := some 5 }) rfl (dayMs 1)).2.2.2 rfl (by decide)

/-- Counterexample for C6: the claim says a successful cancellation
changes nothing but the booking's own status; but cancelling the booking
of `exCheckedInDB` also mutates the apartment record, incrementing its
`availableRooms` counter from 1 to 2. -/
theorem cancel_frame_counterexample :
    (cancelBooking exCheckedInDB 1 true (dayMs 1)).toOption.map
        (fun p => p.1.apartments) =
      some [{ exApartment 1 with availableRooms := 2 }] ∧
    exCheckedInDB.apartments = [exApartment 1] ∧
    ({ exApartment 1 with availableRooms := 2 } : Apartment) ≠ exApartment 1 := by
  decide

/-- Claim C6 (amended): a successful `cancelBooking` sets exactly the
booking's status to `cancelled` (all other booking fields and all other
bookings unchanged) and additionally increments the apartment's
`availableRooms` counter by one — an explicit capacity-release
bookkeeping step on the listing record, contrary to the purely derived
occupancy the claim describes; the fresh-id counter is untouched, and the
apartment store is untouched only when the booking's apartment does not
exist. -/
theorem cancel_effect (db : DB) (bid : Nat) (b : Booking) (now : Int)
    (db2 : DB) (b2 : Booking)
    (hfind : findBooking db bid = some b)
    (hok : cancelBooking db bid true now = .ok (db2, b2)) :
    b2 = { b with bookingStatus := .cancelled } ∧
    db2.bookings = db.bookings.map (fun x =>
      if x.id == b.id then { b with bookingStatus := .cancelled } else x) ∧
    db2.nextId = db.nextId ∧
    (∀ apt, findApartment db b.apartmentId = some apt →
        db2.apartments = db.apartments.map (fun x =>
          if x.id == apt.id then { apt with availableRooms := apt.availableRooms + 1 }
          else x)) ∧
    (findApartment db b.apartmentId = none → db2.apartments = db.apartments) := by
  obtain ⟨bk, hfb, _, _, _, _, hb2, hdb2⟩ := cancelBooking_ok_spec _ _ _ _ _ _ hok
  rw [hfind] at hfb
  obtain rfl : b = bk := Option.some.inj hfb
  subst hb2
  have hsame : findApartment (saveBooking db { b with bookingStatus := .cancelled })
      ({ b with bookingStatus := BookingStatus.cancelled } : Booking).apartmentId =
      findApartment db b.apartmentId := rfl
  refine ⟨rfl, ?_, ?_, ?_, ?_⟩
  · rw [hdb2]
    split <;> rfl
  · rw [hdb2]
    split <;> rfl
  · intro apt hapt
    rw [hdb2]
    rw [hsame] at hdb2 ⊢
    rw [hapt]
    rfl
  · intro hnone
    rw [hdb2, hsame, hnone]
    rfl

/-- Witness for C6 (amended) at `exCheckedInDB`: the characterization of
a successful cancellation, instantiated at the concrete store. -/
theorem cancel_effect_witness :
    ({ exBooking 1 .cancelled (some 1) (dayMs 10) (dayMs 20) with
       checkInTime := some 5 } : Booking).bookingStatus = .cancelled ∧
    (cancelBooking exCheckedInDB 1 true (dayMs 1)).toOption.map (fun p => p.1.nextId) =
      some exCheckedInDB.nextId := by
  refine ⟨rfl, ?_⟩
  have hdec : (cancelBooking exCheckedInDB 1 true (dayMs 1)).toOption.isSome = true := by
    decide
  cases hok : cancelBooking exCheckedInDB 1 true (dayMs 1) with
  | error e =>
      rw [hok] at hdec
      exact absurd hdec (by simp [Except.toOption])
  | ok p =>
      have h := cancel_effect exCheckedInDB 1
        ({ exBooking 1 .checkedIn (some 1) (dayMs 10) (dayMs 20) with
           checkInTime := some 5 }) (dayMs 1) p.1 p.2 rfl hok
      have h2 : p.1.nextId = exCheckedInDB.nextId := h.2.2.1
      exact congrArg (fun n => some n) h2

/-- Counterexample for C8: the claim says every booking persisted by
`createBooking` carries an 8-character ticket code, but `createBooking`
builds its code inline as `BK` + millisecond timestamp + 6-character
random suffix: with timestamp 1700000000000 and suffix `ABC123` the
persisted code is 21 characters long. -/
theorem ticket_code_counterexample :
    (createBooking exEmptyDB 1 7 (dayMs 10) (dayMs 20) 0 true 1700000000000
        "ABC123").toOption.map (fun p => p.2.ticketCode) =
      some "BK1700000000000ABC123" ∧
    "BK1700000000000ABC123".length = 21 ∧ (21 : Nat) ≠ 8 := by
  refine ⟨by decide, rfl, by decide⟩

/-- Claim C8 (amended): a booking persisted by `createBooking` carries
the inline code `BK` + timestamp + random suffix (not 8 characters;
global uniqueness comes from the schema's unique index on `ticketCode`,
not from the generator); the 8-character uppercase-alphanumeric format
belongs to the model's `generateTicketCode`, used by the pre-save hook
only when no code is set, and every code it produces is exactly 8
characters drawn from the 36-character uppercase-alphanumeric pool. -/
theorem ticket_code_format :
    (∀ db aid gid cin cout today ownerOk ts rs db2 bk,
        createBooking db aid gid cin cout today ownerOk ts rs = .ok (db2, bk) →
        bk.ticketCode = makeTicketCode ts rs) ∧
    (∀ r : Fin 8 → Fin 36,
        (generateTicketCode r).length = 8 ∧
        ∀ c ∈ (generateTicketCode r).data, c ∈ ticketCodeChars) := by
  constructor
  · intro db aid gid cin cout today ownerOk ts rs db2 bk h
    obtain ⟨_, _, _, _, _, _, _, hbk, _⟩ :=
      createBooking_ok_spec _ _ _ _ _ _ _ _ _ _ _ h
    rw [hbk]
  · intro r
    have hlen : ∀ (l : List Char), (String.mk l).length = l.length := fun _ => rfl
    constructor
    · unfold generateTicketCode
      rw [hlen, List.length_map, List.length_finRange]
    · intro c hc
      unfold generateTicketCode at hc
      have hdata : ∀ (l : List Char), (String.mk l).data = l := fun _ => rfl
      rw [hdata] at hc
      obtain ⟨i, _, rfl⟩ := List.mem_map.mp hc
      exact List.get_mem _ _ _

/-- Witness for C8 (amended): the concrete `createBooking` run persists
the inline `BK`-prefixed code, and the concrete draw `fun _ => 0` of the
hook generator has length 8. -/
theorem ticket_code_format_witness :
    (createBooking exEmptyDB 1 7 (dayMs 10) (dayMs 20) 0 true 1000
        "ABC123").toOption.map (fun p => p.2.ticketCode) =
      some (makeTicketCode 1000 "ABC123") ∧
    (generateTicketCode (fun _ => (0 : Fin 36))).length = 8 := by
  constructor
  · have hdec : (createBooking exEmptyDB 1 7 (dayMs 10) (dayMs 20) 0 true 1000
        "ABC123").toOption.isSome = true := by decide
    cases hok : createBooking exEmptyDB 1 7 (dayMs 10) (dayMs 20) 0 true 1000 "ABC123" with
    | error e =>
        rw [hok] at hdec
        exact absurd hdec (by simp [Except.toOption])
    | ok p =>
        have h := ticket_code_format.1 _ _ _ _ _ _ _ _ _ _ _ hok
        exact congrArg (fun s => some s) h
  · exact (ticket_code_format.2 (fun _ => (0 : Fin 36))).1

/-- The auto-checkout fold, characterized as an independent per-booking
map: provided stored booking ids are unique, each stored booking is
updated exactly when it matches the query filter and its own save does
not fail — other bookings' failures cannot affect it. -/
theorem foldl_saveBooking_spec (now : Int) (failures : Nat → Bool) :
    ∀ (todo : List Booking) (db0 : DB),
      (∀ t ∈ todo, ∀ x ∈ db0.bookings, x.id = t.id → x = t) →
      (todo.map (fun b => b.id)).Nodup →
      (todo.foldl (fun acc b =>
          if failures b.id then acc
          else saveBooking acc (autoCompleted now b)) db0).bookings =
        db0.bookings.map (fun x =>
          if x ∈ todo ∧ failures x.id = false then autoCompleted now x else x) := by
  intro todo
  induction todo with
  | nil =>
      intro db0 _ _
      simp
  | cons t todo ih =>
      intro db0 H1 H2
      simp only [List.foldl_cons]
      have hnodup : (∀ x ∈ todo, ¬ x.id = t.id) ∧ (todo.map (fun b => b.id)).Nodup := by
        simpa using H2
      have H2tail : (todo.map (fun b => b.id)).Nodup := hnodup.2
      have hnotin : t.id ∉ todo.map (fun b => b.id) := by
        intro hc
        obtain ⟨x, hx, hxid⟩ := List.mem_map.mp hc
        exact hnodup.1 x hx hxid
      by_cases hfail : failures t.id = true
      · rw [if_pos hfail]
        rw [ih db0 (fun u hu x hx hid => H1 u (List.mem_cons_of_mem _ hu) x hx hid) H2tail]
        apply List.map_congr_left
        intro x _
        by_cases hcond : x ∈ todo ∧ failures x.id = false
        · rw [if_pos hcond, if_pos ⟨List.mem_cons_of_mem _ hcond.1, hcond.2⟩]
        · have hneg : ¬ (x ∈ t :: todo ∧ failures x.id = false) := by
            rintro ⟨hmem, hf⟩
            rcases List.mem_cons.mp hmem with rfl | hm2
            · rw [hf] at hfail
              exact absurd hfail (by simp)
            · exact hcond ⟨hm2, hf⟩
          rw [if_neg hcond, if_neg hneg]
      · have hfail2 : failures t.id = false := by
          by_contra hc
          exact hfail (by simpa using hc)
        rw [if_neg (by simp [hfail2])]
        have hdb1 : (saveBooking db0 (autoCompleted now t)).bookings =
            db0.bookings.map (fun y =>
              if y.id == (autoCompleted now t).id then autoCompleted now t else y) := rfl
        have H1step : ∀ u ∈ todo, ∀ x ∈ (saveBooking db0 (autoCompleted now t)).bookings,
            x.id = u.id → x = u := by
          intro u hu x hx hid
          rw [hdb1] at hx
          obtain ⟨y, hy, hxy⟩ := List.mem_map.mp hx
          by_cases hyid : (y.id == (autoCompleted now t).id) = true
          · exfalso
            have hx2 : x = autoCompleted now t := by rw [← hxy, if_pos hyid]
            apply hnotin
            have huid : u.id = t.id := by
              rw [← hid, hx2]
              rfl
            have : u.id ∈ todo.map (fun b => b.id) := List.mem_map_of_mem _ hu
            rwa [huid] at this
          · have hx2 : x = y := by rw [← hxy, if_neg hyid]
            rw [hx2] at hid ⊢
            exact H1 u (List.mem_cons_of_mem _ hu) y hy hid
        rw [ih (saveBooking db0 (autoCompleted now t)) H1step H2tail]
        rw [hdb1, List.map_map]
        apply List.map_congr_left
        intro y hy
        simp only [Function.comp]
        by_cases hyt : y.id = t.id
        · have hyeq : y = t := H1 t (List.mem_cons_self _ _) y hy hyt
          rw [hyeq]
          have hinner : (if (t.id == (autoCompleted now t).id) = true
              then autoCompleted now t else t) = autoCompleted now t :=
            if_pos (by simp [autoCompleted])
          rw [hinner]
          have hnotmem : autoCompleted now t ∉ todo := by
            intro hc
            apply hnotin
            have hmm : (autoCompleted now t).id ∈ todo.map (fun b => b.id) :=
              List.mem_map_of_mem _ hc
            simpa [autoCompleted] using hmm
          rw [if_neg (fun hc => hnotmem hc.1)]
          rw [if_pos ⟨List.mem_cons_self _ _, hfail2⟩]
        · have hinner : (if (y.id == (autoCompleted now t).id) = true
              then autoCompleted now t else y) = y :=
            if_neg (by simp [autoCompleted, hyt])
          rw [hinner]
          by_cases hcond : y ∈ todo ∧ failures y.id = false
          · rw [if_pos hcond, if_pos ⟨List.mem_cons_of_mem _ hcond.1, hcond.2⟩]
          · have hneg : ¬ (y ∈ t :: todo ∧ failures y.id = false) := by
              rintro ⟨hmem, hf⟩
              rcases List.mem_cons.mp hmem with rfl | hm2
              · exact hyt rfl
              · exact hcond ⟨hm2, hf⟩
            rw [if_neg hcond, if_neg hneg]

/-- Counterexample for C9: the claim says the auto-checkout pass
transitions every `checked-in` booking with `checkOut <= now`, but the
query also requires a non-null `roomNumber`: a checked-in booking past
its checkout date with no room assigned is left completely unchanged. -/
theorem auto_checkout_counterexample :
    processAutoCheckouts exRoomlessCheckedInDB 10 (fun _ => false) =
      exRoomlessCheckedInDB ∧
    (exBooking 1 .checkedIn none 0 5).bookingStatus = .checkedIn ∧
    (exBooking 1 .checkedIn none 0 5).checkOut ≤ 10 ∧
    exRoomlessCheckedInDB.bookings = [exBooking 1 .checkedIn none 0 5] := by
  refine ⟨?_, rfl, by decide, rfl⟩
  decide

/-- Claim C9 (amended): with unique stored ids, the auto-checkout pass
maps each stored booking independently: a booking is transitioned exactly
when it is `checked-in` with `checkOut <= now` AND holds a room number
and its own save does not fail, in which case it becomes `completed` with
`checkOutTime = now` (the forced-checkout moment, not the scheduled
`checkOut`); all other bookings, and bookings whose own save fails, are
untouched, so one booking's failure never stops the rest. -/
theorem processAutoCheckouts_spec (db : DB) (now : Int) (failures : Nat → Bool)
    (hnd : (db.bookings.map (fun b => b.id)).Nodup) :
    (processAutoCheckouts db now failures).bookings =
      db.bookings.map (fun b =>
        if autoCheckoutEligible now b = true ∧ failures b.id = false then
          autoCompleted now b
        else b) ∧
    ∀ b ∈ db.bookings, b.bookingStatus = .checkedIn → b.checkOut ≤ now →
      b.roomNumber.isSome = true → failures b.id = false →
      autoCompleted now b ∈ (processAutoCheckouts db now failures).bookings := by
  have H1 : ∀ t ∈ db.bookings.filter (autoCheckoutEligible now),
      ∀ x ∈ db.bookings, x.id = t.id → x = t := by
    intro t ht x hx hid
    exact List.inj_on_of_nodup_map hnd hx (List.mem_of_mem_filter ht) hid
  have H2 : ((db.bookings.filter (autoCheckoutEligible now)).map
      (fun b => b.id)).Nodup := by
    have hsub : (db.bookings.filter (autoCheckoutEligible now)).Sublist db.bookings :=
      List.filter_sublist _
    exact (hsub.map (fun b => b.id)).nodup hnd
  have hform : (processAutoCheckouts db now failures).bookings =
      db.bookings.map (fun x =>
        if x ∈ db.bookings.filter (autoCheckoutEligible now) ∧ failures x.id = false
        then autoCompleted now x else x) :=
    foldl_saveBooking_spec now failures (db.bookings.filter (autoCheckoutEligible now))
      db H1 H2
  constructor
  · rw [hform]
    apply List.map_congr_left
    intro x hx
    by_cases he : autoCheckoutEligible now x = true ∧ failures x.id = false
    · rw [if_pos ⟨List.mem_filter.mpr ⟨hx, he.1⟩, he.2⟩, if_pos he]
    · have hneg : ¬ (x ∈ db.bookings.filter (autoCheckoutEligible now) ∧
          failures x.id = false) := by
        rintro ⟨hm, hf⟩
        exact he ⟨(List.mem_filter.mp hm).2, hf⟩
      rw [if_neg hneg, if_neg he]
  · intro b hb h1 h2 h3 h4
    have helig : autoCheckoutEligible now b = true := by
      simp [autoCheckoutEligible, h1, h2, h3]
    rw [hform]
    exact List.mem_map.mpr ⟨b, hb, if_pos ⟨List.mem_filter.mpr ⟨hb, helig⟩, h4⟩⟩

/-- Witness for C9 (amended) at `exCheckedInDB`: the checked-in booking
with room 1 and scheduled checkout day 20 is force-completed at day 25
with `checkOutTime = day 25`. -/
theorem processAutoCheckouts_spec_witness :
    autoCompleted (dayMs 25)
        ({ exBooking 1 .checkedIn (some 1) (dayMs 10) (dayMs 20) with
           checkInTime := some 5 }) ∈
      (processAutoCheckouts exCheckedInDB (dayMs 25) (fun _ => false)).bookings :=
  (processAutoCheckouts_spec exCheckedInDB (dayMs 25) (fun _ => false) (by decide)).2
    _ (by decide) rfl (by decide) rfl rfl

/-- Claim C10: the availability check of `createBooking` only counts
overlapping bookings that hold a room number (every roomless booking is
invisible to the occupancy query), and since `createBooking` never
assigns a room, any number of overlapping `confirmed` bookings is
accepted: starting from a store where no booking of any apartment holds a
room, n back-to-back bookings of the same dates all succeed for every n —
capacity is enforced only at check-in. -/
theorem capacity_only_at_checkIn (db : DB) (aid gid : Nat) (cin cout today ts : Int)
    (rs : String) (apt : Apartment)
    (hapt : findApartment db aid = some apt) (hact : apt.isActive = true)
    (hrooms : 1 ≤ apt.totalRooms) (htoday : today ≤ cin) (hrange : cin < cout)
    (hnoroom : ∀ b ∈ db.bookings, b.roomNumber = none) :
    (∀ b : Booking, b.roomNumber = none →
        ∀ excl, occupancyQuery aid cin cout excl b = false) ∧
    ∀ n, ∃ db2, createN aid gid cin cout today ts rs n db = .ok db2 ∧
      db2.bookings.length = db.bookings.length + n ∧
      (∀ b ∈ db2.bookings, b.roomNumber = none) ∧
      (∀ b ∈ db2.bookings, b ∉ db.bookings →
          b.bookingStatus = .confirmed ∧ b.apartmentId = aid ∧
          b.checkIn = cin ∧ b.checkOut = cout) := by
  constructor
  · intro b hb excl
    simp [occupancyQuery, hb]
  · intro n
    induction n generalizing db with
    | zero =>
        exact ⟨db, rfl, rfl, hnoroom, fun b hb hb2 => absurd hb hb2⟩
    | succ m ih =>
        have hocc : occupiedRooms db aid cin cout none = [] := by
          rw [List.eq_nil_iff_forall_not_mem]
          intro r hr
          obtain ⟨b, hb, _, hbr⟩ := (mem_occupiedRooms db aid cin cout none r).mp hr
          rw [hnoroom b hb] at hbr
          exact Option.noConfusion hbr
        have hroomok : getNextAvailableRoom db aid cin cout none = .ok 1 := by
          unfold getNextAvailableRoom
          rw [hapt]
          dsimp only
          rw [hocc]
          cases htot : apt.totalRooms with
          | zero => omega
          | succ k =>
              rw [firstFreeFrom]
              rw [if_neg (by simp)]
        have hcreate : createBooking db aid gid cin cout today true ts rs =
            .ok ({ db with
                     bookings := db.bookings ++
                       [{ id := db.nextId, apartmentId := aid, guestId := gid,
                          checkIn := cin, checkOut := cout,
                          bookingStatus := .confirmed, roomNumber := none,
                          checkInTime := none, checkOutTime := none,
                          ticketCode := makeTicketCode ts rs }],
                     nextId := db.nextId + 1 },
                 { id := db.nextId, apartmentId := aid, guestId := gid,
                   checkIn := cin, checkOut := cout, bookingStatus := .confirmed,
                   roomNumber := none, checkInTime := none, checkOutTime := none,
                   ticketCode := makeTicketCode ts rs }) := by
          unfold createBooking
          rw [hapt]
          dsimp only
          rw [if_neg (by simp [hact])]
          rw [if_neg (by simp)]
          rw [if_neg (by omega)]
          rw [if_neg (by omega)]
          rw [hroomok]
        set newB : Booking :=
          { id := db.nextId, apartmentId := aid, guestId := gid,
            checkIn := cin, checkOut := cout, bookingStatus := .confirmed,
            roomNumber := none, checkInTime := none, checkOutTime := none,
            ticketCode := makeTicketCode ts rs } with hnewB
        set db1 : DB :=
          { db with bookings := db.bookings ++ [newB], nextId := db.nextId + 1 }
          with hdb1
        have hapt1 : findApartment db1 aid = some apt := hapt
        have hnoroom1 : ∀ b ∈ db1.bookings, b.roomNumber = none := by
          intro b hb
          rcases List.mem_append.mp hb with h | h
          · exact hnoroom b h
          · rw [List.mem_singleton.mp h]
        obtain ⟨db2, hrun, hlen, hnr2, hnew2⟩ := ih db1 hapt1 hnoroom1
        have hstep : createN aid gid cin cout today ts rs (m + 1) db =
            createN aid gid cin cout today ts rs m db1 := by
          rw [createN, hcreate]
        refine ⟨db2, ?_, ?_, hnr2, ?_⟩
        · rw [hstep]
          exact hrun
        · have h1 : db1.bookings.length = db.bookings.length + 1 := by
            rw [hdb1]
            simp
          omega
        · intro b hb hbnot
          by_cases hbdb1 : b ∈ db1.bookings
          · rcases List.mem_append.mp hbdb1 with h | h
            · exact absurd h hbnot
            · rw [List.mem_singleton.mp h]
              exact ⟨rfl, rfl, rfl, rfl⟩
          · exact hnew2 b hb hbdb1

/-- Witness for C10: three overlapping bookings of the same dates against
the one-room apartment of the empty store all succeed. -/
theorem capacity_only_at_checkIn_witness :
    ∃ db2, createN 1 7 (dayMs 10) (dayMs 20) 0 1000 "ABC123" 3 exEmptyDB = .ok db2 ∧
      db2.bookings.length = exEmptyDB.bookings.length + 3 ∧
      (∀ b ∈ db2.bookings, b.roomNumber = none) ∧
      (∀ b ∈ db2.bookings, b ∉ exEmptyDB.bookings →
          b.bookingStatus = .confirmed ∧ b.apartmentId = 1 ∧
          b.checkIn = dayMs 10 ∧ b.checkOut = dayMs 20) :=
  (capacity_only_at_checkIn exEmptyDB 1 7 (dayMs 10) (dayMs 20) 0 1000 "ABC123"
    (exApartment 1) rfl rfl (by decide) (by decide) (by decide)
    (by intro b hb; simp [exEmptyDB] at hb)).2 3

/-! ### Store lemmas for the allocation invariant -/

theorem findBooking_mem (db : DB) (bid : Nat) (b : Booking)
    (h : findBooking db bid = some b) : b ∈ db.bookings :=
  List.mem_of_find?_eq_some h

theorem findBooking_id (db : DB) (bid : Nat) (b : Booking)
    (h : findBooking db bid = some b) : b.id = bid := by
  unfold findBooking at h
  have h2 := List.find?_some h
  exact eq_of_beq (show (b.id == bid) = true from h2)

theorem map_id_saveBooking (db : DB) (b : Booking) :
    (saveBooking db b).bookings.map (fun x => x.id) =
      db.bookings.map (fun x => x.id) := by
  unfold saveBooking
  dsimp only
  rw [List.map_map]
  apply List.map_congr_left
  intro x _
  simp only [Function.comp]
  by_cases h : (x.id == b.id) = true
  · rw [if_pos h]
    exact (eq_of_beq h).symm
  · rw [if_neg h]

theorem map_id_saveApartment (db : DB) (a : Apartment) :
    (saveApartment db a).apartments.map (fun x => x.id) =
      db.apartments.map (fun x => x.id) := by
  unfold saveApartment
  dsimp only
  rw [List.map_map]
  apply List.map_congr_left
  intro x _
  simp only [Function.comp]
  by_cases h : (x.id == a.id) = true
  · rw [if_pos h]
    exact (eq_of_beq h).symm
  · rw [if_neg h]

theorem mem_saveBooking (db : DB) (nb y : Booking)
    (hy : y ∈ (saveBooking db nb).bookings) :
    ∃ x ∈ db.bookings, y = if (x.id == nb.id) = true then nb else x := by
  obtain ⟨x, hx, hxy⟩ := List.mem_map.mp hy
  exact ⟨x, hx, hxy.symm⟩

theorem roomInRange_of_apartments_eq (db db2 : DB)
    (hap : db2.apartments = db.apartments) (b : Booking) :
    roomInRange db2 b ↔ roomInRange db b := by
  unfold roomInRange findApartment
  rw [hap]

theorem roomInRange_of_totalRooms_eq (db db2 : DB)
    (h : ∀ aid, (findApartment db2 aid).map (fun a => a.totalRooms) =
        (findApartment db aid).map (fun a => a.totalRooms))
    (b : Booking) : roomInRange db2 b ↔ roomInRange db b := by
  unfold roomInRange
  rw [h]

theorem find?_map_untouched (a0 : Apartment) (v : Int) (aid : Nat)
    (hne : ¬ (a0.id == aid) = true) :
    ∀ (l : List Apartment),
      (l.map (fun x => if (x.id == a0.id) = true
          then { a0 with availableRooms := v } else x)).find? (fun a => a.id == aid) =
        l.find? (fun a => a.id == aid) := by
  intro l
  induction l with
  | nil => rfl
  | cons x xs ih =>
      rw [List.map_cons]
      by_cases hx : (x.id == a0.id) = true
      · rw [if_pos hx]
        have hxaid : ¬ (x.id == aid) = true := by
          intro hc
          apply hne
          rw [← eq_of_beq hx]
          exact hc
        rw [@List.find?_cons_of_neg Apartment (fun a => a.id == aid)
              ({ a0 with availableRooms := v }) _ hne,
            @List.find?_cons_of_neg Apartment (fun a => a.id == aid) x _ hxaid]
        exact ih
      · rw [if_neg hx]
        by_cases hxaid : (x.id == aid) = true
        · rw [@List.find?_cons_of_pos Apartment (fun a => a.id == aid) x _ hxaid,
              @List.find?_cons_of_pos Apartment (fun a => a.id == aid) x _ hxaid]
        · rw [@List.find?_cons_of_neg Apartment (fun a => a.id == aid) x _ hxaid,
              @List.find?_cons_of_neg Apartment (fun a => a.id == aid) x _ hxaid]
          exact ih

theorem find?_map_found (a0 : Apartment) (v : Int) :
    ∀ (l : List Apartment), l.find? (fun a => a.id == a0.id) = some a0 →
      (l.map (fun x => if (x.id == a0.id) = true
          then { a0 with availableRooms := v } else x)).find? (fun a => a.id == a0.id) =
        some { a0 with availableRooms := v } := by
  intro l
  induction l with
  | nil => intro h; exact absurd h (by simp)
  | cons x xs ih =>
      intro h
      rw [List.map_cons]
      by_cases hx : (x.id == a0.id) = true
      · rw [if_pos hx]
        rw [@List.find?_cons_of_pos Apartment (fun a => a.id == a0.id)
              ({ a0 with availableRooms := v }) _ (by simp)]
      · rw [if_neg hx]
        rw [@List.find?_cons_of_neg Apartment (fun a => a.id == a0.id) x _ hx] at h
        rw [@List.find?_cons_of_neg Apartment (fun a => a.id == a0.id) x _ hx]
        exact ih h

theorem findApartment_totalRooms_save (db : DB) (aid0 : Nat) (a0 : Apartment)
    (hfind : findApartment db aid0 = some a0) (v : Int) (aid : Nat) :
    (findApartment (saveApartment db { a0 with availableRooms := v }) aid).map
        (fun a => a.totalRooms) =
      (findApartment db aid).map (fun a => a.totalRooms) := by
  have ha0id : a0.id = aid0 := by
    unfold findApartment at hfind
    have h2 := List.find?_some hfind
    exact eq_of_beq (show (a0.id == aid0) = true from h2)
  by_cases haid : (a0.id == aid) = true
  · have haid2 : aid = aid0 := by rw [← eq_of_beq haid, ha0id]
    subst haid2
    have hfind0 : db.apartments.find? (fun a => a.id == a0.id) = some a0 := by
      unfold findApartment at hfind
      rw [ha0id]
      exact hfind
    have hres := find?_map_found a0 v db.apartments hfind0
    unfold findApartment saveApartment
    dsimp only
    have hsame : (fun (x : Apartment) =>
        if (x.id == ({ a0 with availableRooms := v } : Apartment).id) = true
        then { a0 with availableRooms := v } else x) =
        (fun (x : Apartment) => if (x.id == a0.id) = true
          then { a0 with availableRooms := v } else x) := rfl
    rw [hsame]
    rw [show (fun (a : Apartment) => a.id == aid) = (fun (a : Apartment) => a.id == a0.id)
      from by rw [ha0id]]
    rw [hres, hfind0]
    rfl
  · unfold findApartment saveApartment
    dsimp only
    rw [show (fun (x : Apartment) =>
        if (x.id == ({ a0 with availableRooms := v } : Apartment).id) = true
        then { a0 with availableRooms := v } else x) =
        (fun (x : Apartment) => if (x.id == a0.id) = true
          then { a0 with availableRooms := v } else x) from rfl]
    rw [find?_map_untouched a0 v aid haid]

/-- Saving a modified booking that keeps its id, apartment, dates and
room number preserves the allocation invariant, provided the new status
only counts toward occupancy when the old one did (or the booking holds
no room). -/
theorem DBInv_saveBooking (db : DB) (b nb : Booking)
    (hmem : b ∈ db.bookings)
    (hid : nb.id = b.id) (haptid : nb.apartmentId = b.apartmentId)
    (hcin : nb.checkIn = b.checkIn) (hcout : nb.checkOut = b.checkOut)
    (hroom : nb.roomNumber = b.roomNumber)
    (hact : countsTowardOccupancy nb.bookingStatus = true →
        countsTowardOccupancy b.bookingStatus = true ∨ b.roomNumber = none)
    (hInv : DBInv db) : DBInv (saveBooking db nb) := by
  obtain ⟨hnd, hand, hlt, hrng, hshare⟩ := hInv
  have hmem2 : ∀ y ∈ (saveBooking db nb).bookings,
      y = nb ∨ (y ∈ db.bookings ∧ ¬ (y.id == nb.id) = true) := by
    intro y hy
    obtain ⟨x, hx, hxy⟩ := mem_saveBooking db nb y hy
    by_cases hc : (x.id == nb.id) = true
    · left
      rw [hxy, if_pos hc]
    · right
      rw [hxy, if_neg hc]
      exact ⟨hx, hc⟩
  refine ⟨?_, ?_, ?_, ?_, ?_⟩
  · rw [map_id_saveBooking]
    exact hnd
  · exact hand
  · intro y hy
    rcases hmem2 y hy with rfl | ⟨hy2, _⟩
    · rw [hid]
      exact hlt b hmem
    · exact hlt y hy2
  · intro y hy
    refine (roomInRange_of_apartments_eq db (saveBooking db nb) rfl y).mpr ?_
    rcases hmem2 y hy with rfl | ⟨hy2, _⟩
    · have hb := hrng b hmem
      unfold roomInRange at hb ⊢
      rw [hroom, haptid]
      exact hb
    · exact hrng y hy2
  · intro y1 hy1 y2 hy2 hne hsameapt hovl hc1 hc2 hsome
    rcases hmem2 y1 hy1 with rfl | ⟨hm1, _⟩
    · rcases hmem2 y2 hy2 with rfl | ⟨hm2, _⟩
      · exact absurd rfl hne
      · rcases hact hc1 with hcb | hrnone
        · have hbid : b.id ≠ y2.id := by
            rw [← hid]
            exact hne
          have hres := hshare b hmem y2 hm2 hbid
            (by rw [← haptid]; exact hsameapt)
            (by rw [overlapsRange_iff] at hovl ⊢
                rw [hcin, hcout] at hovl
                exact hovl)
            hcb hc2 (by rw [← hroom]; exact hsome)
          rw [hroom]
          exact hres
        · rw [hroom, hrnone] at hsome
          exact absurd hsome (by simp)
    · rcases hmem2 y2 hy2 with rfl | ⟨hm2, _⟩
      · rcases hact hc2 with hcb | hrnone
        · have hbid : y1.id ≠ b.id := fun h => hne (h.trans hid.symm)
          have hres := hshare y1 hm1 b hmem hbid
            (by rw [haptid] at hsameapt; exact hsameapt)
            (by rw [overlapsRange_iff] at hovl ⊢
                rw [hcin, hcout] at hovl
                exact hovl)
            hc1 hcb hsome
          rw [hroom]
          exact hres
        · rw [hroom, hrnone]
          intro hc
          rw [hc] at hsome
          exact absurd hsome (by simp)
      · exact hshare y1 hm1 y2 hm2 hne hsameapt hovl hc1 hc2 hsome

/-- Assigning the allocator's answer to a roomless booking at check-in
preserves the allocation invariant: the returned room is within capacity
and distinct from every room held by an overlapping occupancy-counting
booking. -/
theorem DBInv_assign (db : DB) (b : Booking) (r : Nat) (now : Int)
    (hmem : b ∈ db.bookings) (hroomnone : b.roomNumber = none)
    (hok : getNextAvailableRoom db b.apartmentId b.checkIn b.checkOut (some b.id) = .ok r)
    (hInv : DBInv db) :
    DBInv (saveBooking db
      { b with bookingStatus := .checkedIn, roomNumber := some r,
               checkInTime := some now }) := by
  obtain ⟨hnd, hand, hlt, hrng, hshare⟩ := hInv
  have hfacts : ∃ apt, findApartment db b.apartmentId = some apt ∧ 1 ≤ r ∧
      r ≤ apt.totalRooms ∧
      r ∉ occupiedRooms db b.apartmentId b.checkIn b.checkOut (some b.id) := by
    unfold getNextAvailableRoom at hok
    cases hfa : findApartment db b.apartmentId with
    | none =>
        rw [hfa] at hok
        exact absurd hok (by simp)
    | some apt =>
        rw [hfa] at hok
        dsimp only at hok
        cases hff : firstFreeFrom
            (occupiedRooms db b.apartmentId b.checkIn b.checkOut (some b.id)) 1
            apt.totalRooms with
        | none =>
            rw [hff] at hok
            exact absurd hok (by simp)
        | some r0 =>
            rw [hff] at hok
            obtain rfl : r0 = r := by simpa using hok
            obtain ⟨h1, h2, h3, _⟩ := firstFreeFrom_some_spec _ _ _ _ hff
            exact ⟨apt, rfl, h1, by omega, h3⟩
  obtain ⟨apt, hfa, hr1, hr2, hnotocc⟩ := hfacts
  have hocc : ∀ x ∈ db.bookings, x.id ≠ b.id → x.apartmentId = b.apartmentId →
      overlapsRange x b.checkIn b.checkOut = true →
      countsTowardOccupancy x.bookingStatus = true →
      ∀ rx, x.roomNumber = some rx → rx ≠ r := by
    intro x hx hxid hxapt hxovl hxc rx hxr hcontra
    apply hnotocc
    rw [← hcontra]
    apply (mem_occupiedRooms db b.apartmentId b.checkIn b.checkOut (some b.id) rx).mpr
    refine ⟨x, hx, ?_, hxr⟩
    simp [occupancyQuery, hxapt, hxovl, hxc, hxr, hxid]
  have hmem2 : ∀ y ∈ (saveBooking db
      { b with bookingStatus := .checkedIn, roomNumber := some r, checkInTime := some now }).bookings,
      y = { b with bookingStatus := .checkedIn, roomNumber := some r, checkInTime := some now } ∨
      (y ∈ db.bookings ∧ y.id ≠ b.id) := by
    intro y hy
    obtain ⟨x, hx, hxy⟩ := mem_saveBooking db _ y hy
    by_cases hc : (x.id == b.id) = true
    · left
      rw [hxy, if_pos hc]
    · right
      rw [hxy, if_neg hc]
      exact ⟨hx, fun h => hc (beq_iff_eq.mpr h)⟩
  refine ⟨?_, ?_, ?_, ?_, ?_⟩
  · rw [map_id_saveBooking]
    exact hnd
  · exact hand
  · intro y hy
    rcases hmem2 y hy with rfl | ⟨hy2, _⟩
    · exact hlt b hmem
    · exact hlt y hy2
  · intro y hy
    refine (roomInRange_of_apartments_eq db _ rfl y).mpr ?_
    rcases hmem2 y hy with rfl | ⟨hy2, _⟩
    · intro _
      show 1 ≤ (some r).getD 0 ∧ (some r).getD 0 ≤
        ((findApartment db b.apartmentId).map (fun a => a.totalRooms)).getD 0
      rw [hfa]
      exact ⟨hr1, hr2⟩
    · exact hrng y hy2
  · intro y1 hy1 y2 hy2 hne hsameapt hovl hc1 hc2 hsome
    rcases hmem2 y1 hy1 with rfl | ⟨hm1, hne1⟩
    · rcases hmem2 y2 hy2 with rfl | ⟨hm2, hne2⟩
      · exact absurd rfl hne
      · have hxid : y2.id ≠ b.id := hne2
        have hxapt : y2.apartmentId = b.apartmentId := hsameapt.symm
        have hovlb : overlapsRange b y2.checkIn y2.checkOut = true := hovl
        have hovlx : overlapsRange y2 b.checkIn b.checkOut = true :=
          (overlapsRange_symm y2 b).mpr hovlb
        intro hceq
        exact hocc y2 hm2 hxid hxapt hovlx hc2 r hceq.symm rfl
    · rcases hmem2 y2 hy2 with rfl | ⟨hm2, hne2⟩
      · have hxid : y1.id ≠ b.id := hne1
        have hxapt : y1.apartmentId = b.apartmentId := hsameapt
        have hovlx : overlapsRange y1 b.checkIn b.checkOut = true := hovl
        obtain ⟨rx, hrx⟩ := Option.isSome_iff_exists.mp hsome
        rw [hrx]
        intro hc
        exact hocc y1 hm1 hxid hxapt hovlx hc1 rx hrx (Option.some.inj hc)
      · exact hshare y1 hm1 y2 hm2 hne hsameapt hovl hc1 hc2 hsome

/-- A successful `createBooking` preserves the allocation invariant: the
new booking is `confirmed` with no room and a fresh id. -/
theorem DBInv_createBooking (db : DB) (aid gid : Nat) (cin cout today ts : Int)
    (ownerOk : Bool) (rs : String) (db2 : DB) (bk : Booking)
    (hok : createBooking db aid gid cin cout today ownerOk ts rs = .ok (db2, bk))
    (hInv : DBInv db) : DBInv db2 := by
  obtain ⟨apartment, _, _, _, _, _, _, hbk, hdb2⟩ :=
    createBooking_ok_spec _ _ _ _ _ _ _ _ _ _ _ hok
  obtain ⟨hnd, hand, hlt, hrng, hshare⟩ := hInv
  subst hbk
  subst hdb2
  refine ⟨?_, hand, ?_, ?_, ?_⟩
  · dsimp only
    rw [List.map_append]
    refine hnd.append (by simp) ?_
    intro a ha hb
    obtain ⟨x, hx, hxa⟩ := List.mem_map.mp ha
    have hlt2 := hlt x hx
    have hb2 : a = db.nextId := by simpa using hb
    omega
  · intro y hy
    dsimp only at hy ⊢
    rcases List.mem_append.mp hy with h | h
    · have := hlt y h
      omega
    · rw [List.mem_singleton.mp h]
      dsimp only
      omega
  · intro y hy
    refine (roomInRange_of_apartments_eq db _ rfl y).mpr ?_
    rcases List.mem_append.mp hy with h | h
    · exact hrng y h
    · rw [List.mem_singleton.mp h]
      intro hc
      exact absurd hc (by simp)
  · intro y1 hy1 y2 hy2 hne hsameapt hovl hc1 hc2 hsome
    rcases List.mem_append.mp hy1 with h1 | h1
    · rcases List.mem_append.mp hy2 with h2 | h2
      · exact hshare y1 h1 y2 h2 hne hsameapt hovl hc1 hc2 hsome
      · rw [List.mem_singleton.mp h2]
        obtain ⟨rx, hrx⟩ := Option.isSome_iff_exists.mp hsome
        rw [hrx]
        simp
    · rw [List.mem_singleton.mp h1] at hsome
      exact absurd hsome (by simp)

/-- A successful `updateBookingStatus` preserves the allocation
invariant, provided the request does not revive a non-occupancy-counting
booking that still holds a room. -/
theorem DBInv_updateBookingStatus (db : DB) (bid : Nat) (st : BookingStatus)
    (auth : Bool) (now : Int) (db2 : DB) (b2 : Booking)
    (hok : updateBookingStatus db bid st auth now = .ok (db2, b2))
    (hsafe : countsTowardOccupancy st = true →
        ∀ b ∈ findBooking db bid,
          countsTowardOccupancy b.bookingStatus = false → b.roomNumber = none)
    (hInv : DBInv db) : DBInv db2 := by
  obtain ⟨booking, hfb, _, _, _, hdb2, _, _, _, _, _, hcases⟩ :=
    updateBookingStatus_ok_spec _ _ _ _ _ _ _ hok
  have hmem : booking ∈ db.bookings := findBooking_mem _ _ _ hfb
  subst hdb2
  rcases hcases with ⟨hst, hroomnone, r, hr, _, _, _, hb2⟩ | ⟨_, _, _, _, hb2eq⟩
  · subst hb2
    subst hst
    exact DBInv_assign db booking r now hmem hroomnone hr hInv
  · have hact : ∀ nbst : BookingStatus, nbst = st →
        countsTowardOccupancy nbst = true →
        countsTowardOccupancy booking.bookingStatus = true ∨
          booking.roomNumber = none := by
      intro nbst hnbst hc
      rcases Bool.eq_false_or_eq_true (countsTowardOccupancy booking.bookingStatus) with
        hcb | hcb
      · exact Or.inl hcb
      · exact Or.inr (hsafe (hnbst ▸ hc) booking hfb hcb)
    rcases hb2eq with hb2 | hb2 <;> subst hb2
    · exact DBInv_saveBooking db booking _ hmem rfl rfl rfl rfl rfl
        (hact _ rfl) hInv
    · exact DBInv_saveBooking db booking _ hmem rfl rfl rfl rfl rfl
        (hact _ rfl) hInv

/-- A successful `cancelBooking` preserves the allocation invariant: the
booking leaves the occupancy-counting statuses and the apartment change
only touches `availableRooms`, not `totalRooms`. -/
theorem DBInv_cancelBooking (db : DB) (bid : Nat) (auth : Bool) (now : Int)
    (db2 : DB) (b2 : Booking)
    (hok : cancelBooking db bid auth now = .ok (db2, b2))
    (hInv : DBInv db) : DBInv db2 := by
  obtain ⟨booking, hfb, _, _, _, _, hb2, hdb2⟩ := cancelBooking_ok_spec _ _ _ _ _ _ hok
  have hmem : booking ∈ db.bookings := findBooking_mem _ _ _ hfb
  subst hb2
  have hInv1 : DBInv (saveBooking db { booking with bookingStatus := .cancelled }) :=
    DBInv_saveBooking db booking _ hmem rfl rfl rfl rfl rfl
      (fun hc => by simp [countsTowardOccupancy] at hc) hInv
  subst hdb2
  obtain ⟨hnd1, hand1, hlt1, hrng1, hshare1⟩ := hInv1
  cases hfa : findApartment (saveBooking db { booking with bookingStatus := .cancelled })
      ({ booking with bookingStatus := BookingStatus.cancelled } : Booking).apartmentId with
  | none => exact ⟨hnd1, hand1, hlt1, hrng1, hshare1⟩
  | some apt =>
      refine ⟨hnd1, ?_, hlt1, ?_, hshare1⟩
      · rw [map_id_saveApartment]
        exact hand1
      · intro y hy
        refine (roomInRange_of_totalRooms_eq
          (saveBooking db { booking with bookingStatus := .cancelled }) _
          (fun aid => findApartment_totalRooms_save _ _ apt hfa _ aid) y).mpr ?_
        exact hrng1 y hy

/-- A successful `selfCheckout` preserves the allocation invariant: the
booking moves from `checked-in` to `completed`, both occupancy-counting,
with its room unchanged. -/
theorem DBInv_selfCheckout (db : DB) (bid : Nat) (g : Bool) (now : Int)
    (db2 : DB) (b2 : Booking)
    (hok : selfCheckout db bid g now = .ok (db2, b2))
    (hInv : DBInv db) : DBInv db2 := by
  obtain ⟨booking, hfb, _, hst, _, hb2, hdb2⟩ := selfCheckout_ok_spec _ _ _ _ _ _ hok
  subst hb2
  subst hdb2
  refine DBInv_saveBooking db booking _ (findBooking_mem _ _ _ hfb)
    rfl rfl rfl rfl rfl ?_ hInv
  intro _
  left
  rw [hst]
  rfl

/-- Every revival-free lifecycle request preserves the allocation
invariant (rejected requests leave the stores untouched). -/
theorem DBInv_applyOp (db : DB) (op : Op) (hInv : DBInv db) (hSafe : SafeOp db op) :
    DBInv (applyOp db op) := by
  cases op with
  | create aid gid cin cout today ownerOk ts rs =>
      unfold applyOp
      dsimp only
      cases hc : createBooking db aid gid cin cout today ownerOk ts rs with
      | error e => exact hInv
      | ok p =>
          exact DBInv_createBooking db aid gid cin cout today ts ownerOk rs p.1 p.2 hc hInv
  | setStatus bid st auth now =>
      unfold applyOp
      dsimp only
      cases hc : updateBookingStatus db bid st auth now with
      | error e => exact hInv
      | ok p =>
          exact DBInv_updateBookingStatus db bid st auth now p.1 p.2 hc hSafe hInv
  | cancel bid auth now =>
      unfold applyOp
      dsimp only
      cases hc : cancelBooking db bid auth now with
      | error e => exact hInv
      | ok p => exact DBInv_cancelBooking db bid auth now p.1 p.2 hc hInv
  | checkout bid g now =>
      unfold applyOp
      dsimp only
      cases hc : selfCheckout db bid g now with
      | error e => exact hInv
      | ok p => exact DBInv_selfCheckout db bid g now p.1 p.2 hc hInv

/-- The allocation invariant is preserved along every revival-free
sequence of lifecycle requests. -/
theorem DBInv_run (db : DB) (ops : List Op) (hInv : DBInv db)
    (hSafe : SafeRun db ops) : DBInv (run db ops) := by
  induction ops generalizing db with
  | nil => exact hInv
  | cons op ops ih =>
      exact ih (applyOp db op) (DBInv_applyOp db op hInv hSafe.1) hSafe.2

/-- Under the allocation invariant, any duplicate-free set of pairwise
overlapping occupancy-counting room-holding bookings of one apartment has
pairwise distinct room numbers and therefore at most `totalRooms`
members. -/
theorem rooms_length_le (db : DB) (hInv : DBInv db) (aid : Nat) (apt : Apartment)
    (hapt : findApartment db aid = some apt) (l : List Booking)
    (hsub : ∀ b ∈ l, b ∈ db.bookings) (hnd : l.Nodup)
    (hprops : ∀ b ∈ l, b.apartmentId = aid ∧
        countsTowardOccupancy b.bookingStatus = true ∧ b.roomNumber.isSome = true)
    (hpair : l.Pairwise (fun a b => overlapsRange a b.checkIn b.checkOut = true)) :
    l.length ≤ apt.totalRooms ∧ (l.map (fun b => b.roomNumber)).Nodup := by
  obtain ⟨hndids, _, _, hrng, hshare⟩ := hInv
  have hsymm : Symmetric (fun a b : Booking =>
      overlapsRange a b.checkIn b.checkOut = true) := by
    intro x y h
    exact (overlapsRange_symm x y).mp h
  have hovl : ∀ a ∈ l, ∀ b ∈ l, a ≠ b →
      overlapsRange a b.checkIn b.checkOut = true := by
    intro a ha b hb hab
    exact hpair.forall hsymm ha hb hab
  have hroomsne : ∀ a ∈ l, ∀ b ∈ l, a ≠ b → a.roomNumber ≠ b.roomNumber := by
    intro a ha b hb hab
    have haid : a.id ≠ b.id := by
      intro h
      exact hab (List.inj_on_of_nodup_map hndids (hsub a ha) (hsub b hb) h)
    exact hshare a (hsub a ha) b (hsub b hb) haid
      ((hprops a ha).1.trans (hprops b hb).1.symm)
      (hovl a ha b hb hab) (hprops a ha).2.1 (hprops b hb).2.1 (hprops a ha).2.2
  have hmapnd : (l.map (fun b => b.roomNumber)).Nodup := by
    refine List.Nodup.map_on ?_ hnd
    intro x hx y hy hxy
    by_contra hne
    exact hroomsne x hx y hy hne hxy
  refine ⟨?_, hmapnd⟩
  have hgd : (l.map (fun b => b.roomNumber.getD 0)).Nodup := by
    refine List.Nodup.map_on ?_ hnd
    intro x hx y hy hxy
    by_contra hne
    obtain ⟨rx, hrx⟩ := Option.isSome_iff_exists.mp (hprops x hx).2.2
    obtain ⟨ry, hry⟩ := Option.isSome_iff_exists.mp (hprops y hy).2.2
    apply hroomsne x hx y hy hne
    rw [hrx, hry] at hxy ⊢
    simp only [Option.getD_some] at hxy
    rw [hxy]
  have hsubset : (l.map (fun b => b.roomNumber.getD 0)).toFinset ⊆
      Finset.Icc 1 apt.totalRooms := by
    intro z hz
    rw [List.mem_toFinset] at hz
    obtain ⟨b, hb, hbz⟩ := List.mem_map.mp hz
    have hr := hrng b (hsub b hb) (hprops b hb).2.2
    rw [(hprops b hb).1, hapt] at hr
    rw [Finset.mem_Icc]
    constructor
    · rw [← hbz]
      exact hr.1
    · rw [← hbz]
      exact hr.2
  have hcard := Finset.card_le_card hsubset
  rw [List.toFinset_card_of_nodup hgd, List.length_map, Nat.card_Icc] at hcard
  omega

/-- Counterexample for C1: starting from the empty store over a one-room
listing, the purely sequential five-request scenario `doubleAllocOps`
(book A days 10-20, book B days 12-18, check A in, cancel A more than 24h
before its check-in date, check B in) ends with TWO bookings of the same
listing, with overlapping date ranges, both holding room number 1 — more
than `totalRooms = 1` bookings hold assigned rooms and two of them share
a room, because the cancelled booking keeps its stale room number while
the allocator no longer sees it. The initial store satisfies the
allocation invariant and every request is revival-free, so the violation
is not an artifact of a malformed start. -/
theorem no_double_allocation_counterexample :
    DBInv exEmptyDB ∧
    SafeRun exEmptyDB doubleAllocOps ∧
    (run exEmptyDB doubleAllocOps).bookings.map (fun b => (b.id, b.roomNumber)) =
      [(1, some 1), (2, some 1)] ∧
    (∀ b ∈ (run exEmptyDB doubleAllocOps).bookings, b.apartmentId = 1) ∧
    (run exEmptyDB doubleAllocOps).apartments.map (fun a => a.totalRooms) = [1] ∧
    (∀ a ∈ (run exEmptyDB doubleAllocOps).bookings,
        ∀ b ∈ (run exEmptyDB doubleAllocOps).bookings,
          overlapsRange a b.checkIn b.checkOut = true) := by
  refine ⟨by decide, by decide, by decide, by decide, by decide, by decide⟩

/-- Claim C1 (amended): restricted to bookings whose status counts toward
occupancy (confirmed / checked-in / completed — cancelled bookings with
stale room numbers are excluded, as the counterexample forces), and to
request sequences that never revive a non-counting booking that still
holds a room: from any store satisfying the allocation invariant, after
any such sequence of lifecycle requests the invariant still holds — in
particular no two occupancy-counting bookings of one listing with
overlapping dates share a room number — and every duplicate-free,
pairwise-overlapping set of occupancy-counting room-holding bookings of a
listing has pairwise distinct rooms and at most `totalRooms` members. -/
theorem no_double_allocation_amended (db : DB) (ops : List Op)
    (hInv : DBInv db) (hSafe : SafeRun db ops) :
    DBInv (run db ops) ∧
    NoSharedRooms (run db ops) ∧
    ∀ (aid : Nat) (apt : Apartment), findApartment (run db ops) aid = some apt →
      ∀ (l : List Booking), (∀ b ∈ l, b ∈ (run db ops).bookings) → l.Nodup →
        (∀ b ∈ l, b.apartmentId = aid ∧
            countsTowardOccupancy b.bookingStatus = true ∧
            b.roomNumber.isSome = true) →
        l.Pairwise (fun a b => overlapsRange a b.checkIn b.checkOut = true) →
        l.length ≤ apt.totalRooms ∧ (l.map (fun b => b.roomNumber)).Nodup := by
  have hrun := DBInv_run db ops hInv hSafe
  exact ⟨hrun, hrun.2.2.2.2, fun aid apt hapt l hsub hnd hprops hpair =>
    rooms_length_le _ hrun aid apt hapt l hsub hnd hprops hpair⟩

/-- Witness for C1 (amended) at the concrete double-allocation scenario:
the invariant holds after the five safe requests (booking A is cancelled,
so only booking B counts toward occupancy). -/
theorem no_double_allocation_amended_witness :
    DBInv (run exEmptyDB doubleAllocOps) ∧ NoSharedRooms (run exEmptyDB doubleAllocOps) :=
  ⟨(no_double_allocation_amended exEmptyDB doubleAllocOps (by decide) (by decide)).1,
   (no_double_allocation_amended exEmptyDB doubleAllocOps (by decide) (by decide)).2.1⟩

end StayGlobal
